import Mathlib

/-!
Verification development for the xagentsync repository (Rust).

The development shallowly embeds the core of the repository:
the handoff data model (`src/handoff/*.rs`, `src/context/mod.rs`),
its JSON serialization, the prompt compiler, the CLI token parsers
of `src/main.rs`, and the file-backed sync store of `src/sync/mod.rs`.

Modelling conventions:
* JSON is modelled at the value level (an inductive `Json` mirroring the
  serde_json data model).  `serde_json::to_string_pretty` / `from_str`
  are modelled as producing/consuming `Json` values; the concrete-syntax
  layer (printing and re-parsing the text) is outside the model.
* `chrono::DateTime<Utc>` is modelled as a nanosecond count since the
  epoch (`DateTimeUtc`), which is exactly the information chrono's serde
  round-trips.
* `uuid::Uuid` is modelled as its hyphenated string rendering.
* Rust `u8` / `u32` fields are modelled as `Nat` together with the
  decidable well-formedness bound a Rust value always satisfies
  (`< 256`, `< 2^32`); the JSON decoders check the bound as serde does.
* The filesystem is modelled as association lists of named entries; a
  directory never holds two entries of the same name, which is stated as
  a `Nodup` hypothesis where a proof needs it.
-/

/-- The serde_json value data model (numbers restricted to the integers
the embedded code actually stores). -/
inductive Json where
  | null : Json
  | bool (b : Bool) : Json
  | num (n : Int) : Json
  | str (s : String) : Json
  | arr (elems : List Json) : Json
  | obj (fields : List (String × Json)) : Json

/-- Look a field up in a JSON object body (first binding wins, as in
serde_json's map lookup). -/
def Json.lookupField : List (String × Json) → String → Option Json
  | [], _ => none
  | (k, v) :: rest, key => if k = key then some v else Json.lookupField rest key

/-- Field access on a JSON value; `none` off objects. -/
def Json.getField : Json → String → Option Json
  | .obj fs, key => Json.lookupField fs key
  | _, _ => none

/-- Decode a JSON string. -/
def decodeString : Json → Option String
  | .str s => some s
  | _ => none

/-- serde encodes `Option<T>`: `None` as `null`, `Some` transparently. -/
def encodeOpt (e : α → Json) : Option α → Json
  | none => Json.null
  | some a => e a

/-- serde decodes `Option<T>`: `null` as `None`, otherwise the payload. -/
def decodeOpt (d : Json → Option α) : Json → Option (Option α)
  | Json.null => some none
  | j => (d j).map some

/-- Decode every element of a JSON array body, failing if any element
fails (serde's `Vec<T>` behaviour). -/
def decodeEach (d : Json → Option α) : List Json → Option (List α)
  | [] => some []
  | j :: rest =>
    match d j, decodeEach d rest with
    | some a, some tail => some (a :: tail)
    | _, _ => none

/-- Decode a `Vec<T>`. -/
def decodeArr (d : Json → Option α) : Json → Option (List α)
  | Json.arr xs => decodeEach d xs
  | _ => none

/-- Encode a `Vec<T>`. -/
def encodeArr (e : α → Json) (xs : List α) : Json := Json.arr (xs.map e)

/-- Encode a Rust unsigned integer (`u8`/`u32`) field. -/
def encodeNat (n : Nat) : Json := Json.num (n : Int)

/-- Decode a `u8`: serde rejects numbers outside `0..=255`. -/
def decodeU8 : Json → Option Nat
  | Json.num n => if 0 ≤ n ∧ n < 256 then some n.toNat else none
  | _ => none

/-- Decode a `u32`: serde rejects numbers outside `0..=2^32-1`. -/
def decodeU32 : Json → Option Nat
  | Json.num n => if 0 ≤ n ∧ n < 4294967296 then some n.toNat else none
  | _ => none

/-- Decode a `bool`. -/
def decodeBool : Json → Option Bool
  | .bool b => some b
  | _ => none

/-- `char::to_lowercase` over a whole string: models Rust
`str::to_lowercase` on the ASCII tokens the CLI compares against. -/
def sToLower (s : String) : String := ⟨s.data.map Char.toLower⟩

/-- Models Rust `str::ends_with`. -/
def sEndsWith (s suffix : String) : Bool := suffix.data.isSuffixOf s.data

/-- Character-list prefix test (needle, haystack). -/
def charsPrefixOf : List Char → List Char → Bool
  | [], _ => true
  | _ :: _, [] => false
  | a :: as, b :: bs => a == b && charsPrefixOf as bs

/-- Character-list substring test (haystack, needle). -/
def charsContains : List Char → List Char → Bool
  | [], needle => needle.isEmpty
  | c :: rest, needle => charsPrefixOf needle (c :: rest) || charsContains rest needle

/-- Models Rust `str::contains` with a string pattern. -/
def sContains (hay needle : String) : Bool := charsContains hay.data needle.data

/-- Models Rust `&s[..n]` for ASCII strings (the code takes the first 8
hex characters of a UUID). -/
def sTake (s : String) (n : Nat) : String := ⟨s.data.take n⟩

/-- `chrono::DateTime<Utc>` as the nanosecond count since the Unix
epoch: exactly the instant information chrono serializes (RFC 3339 with
nanosecond precision) and parses back. -/
structure DateTimeUtc where
  nanos : Int
deriving DecidableEq

/-- Encoding of a timestamp: the RFC 3339 text is abstracted to the
instant it denotes, which chrono's serde round-trips exactly. -/
def DateTimeUtc.encode (t : DateTimeUtc) : Json := Json.num t.nanos

def DateTimeUtc.decode : Json → Option DateTimeUtc
  | Json.num n => some ⟨n⟩
  | _ => none

/-- `created_at.format("%Y%m%d_%H%M%S")` (sync/mod.rs line 100): a
second-precision rendering of the timestamp, modelled as the decimal
seconds count — injective per second and collapsing sub-second
differences, exactly like the strftime pattern. -/
def DateTimeUtc.formatCompact (t : DateTimeUtc) : String :=
  toString (t.nanos / 1000000000)

/-- `created_at.format("%Y-%m-%d %H:%M UTC")` (handoff/mod.rs line 159):
a minute-precision display rendering, modelled analogously. -/
def DateTimeUtc.formatDisplay (t : DateTimeUtc) : String :=
  toString (t.nanos / 60000000000) ++ " UTC"

/-! ## Data model (src/handoff/debug.rs) -/

/-- Likelihood of a hypothesis (debug.rs). -/
inductive Likelihood where
  | High
  | Medium
  | Low
  | Eliminated
deriving DecidableEq

/-- Outcome of an attempt (debug.rs). -/
inductive AttemptOutcome where
  | Fixed
  | Helped
  | NoEffect
  | MadeWorse
  | Inconclusive
deriving DecidableEq

/-- Kind of evidence (debug.rs). -/
inductive EvidenceKind where
  | Observation
  | LogEntry
  | ErrorMessage
  | StackTrace
  | Metric
  | UserReport
  | Screenshot
deriving DecidableEq

/-- A hypothesis about what might be wrong (debug.rs). -/
structure Hypothesis where
  theory : String
  support : List String
  against : List String
  likelihood : Likelihood
deriving DecidableEq

/-- Something that was attempted (debug.rs). -/
structure Attempt where
  what : String
  result : String
  outcome : AttemptOutcome
deriving DecidableEq

/-- A piece of evidence (debug.rs). -/
structure Evidence where
  kind : EvidenceKind
  content : String
  source : Option String
  timestamp : Option String
deriving DecidableEq

/-- A file suspected to be involved (debug.rs). -/
structure SuspectedFile where
  path : String
  reason : String
  lines : Option String
  confidence : Likelihood
deriving DecidableEq

/-- Context for debug/troubleshooting handoffs (debug.rs). -/
structure DebugContext where
  problem_statement : String
  symptoms : List String
  hypotheses : List Hypothesis
  attempted : List Attempt
  evidence : List Evidence
  suspected_files : List SuspectedFile
  reproduction_steps : Option String
  working_theory : Option String
  next_to_try : Option String
deriving DecidableEq

/-! ## Data model (src/handoff/deploy.rs) -/

/-- Confidence level (deploy.rs). -/
inductive Confidence where
  | High
  | Medium
  | Low
deriving DecidableEq

/-- Something ready to ship (deploy.rs). -/
structure ShipItem where
  item : String
  description : String
  confidence : Confidence
deriving DecidableEq

/-- Environment-specific concern (deploy.rs). -/
structure EnvConcern where
  environment : String
  concern : String
  mitigation : Option String
deriving DecidableEq

/-- A dependency (deploy.rs). -/
structure Dependency where
  name : String
  reason : String
  in_place : Bool
deriving DecidableEq

/-- A breaking change (deploy.rs). -/
structure BreakingChange where
  what : String
  affects : String
  migration : Option String
deriving DecidableEq

/-- Checklist item (deploy.rs). -/
structure ChecklistItem where
  item : String
  done : Bool
deriving DecidableEq

/-- Context for deployment handoffs (deploy.rs). -/
structure DeployContext where
  what_to_ship : List ShipItem
  verification_steps : List String
  rollback_plan : Option String
  env_concerns : List EnvConcern
  dependencies : List Dependency
  breaking_changes : List BreakingChange
  checklist : List ChecklistItem
  monitoring_notes : Option String
deriving DecidableEq

/-! ## Data model (src/handoff/plan.rs) -/

/-- Priority level (plan.rs). -/
inductive Priority where
  | Must
  | Should
  | Could
  | Wont
deriving DecidableEq

/-- Phase of planning (plan.rs). -/
inductive PlanPhase where
  | Discovery
  | Requirements
  | Design
  | Review
  | Ready
deriving DecidableEq

/-- A requirement (plan.rs). -/
structure Requirement where
  description : String
  priority : Priority
  source : Option String
  confirmed : Bool
deriving DecidableEq

/-- A decision that was made (plan.rs). -/
structure Decision where
  decision : String
  rationale : String
  context : Option String
  reversible : Bool
deriving DecidableEq

/-- An option that was rejected (plan.rs). -/
structure RejectedOption where
  option : String
  reason : String
  reconsiderable : Bool
deriving DecidableEq

/-- A question that needs answering (plan.rs). -/
structure OpenQuestion where
  question : String
  importance : String
  ask_who : Option String
  blocking : Bool
deriving DecidableEq

/-- A constraint (plan.rs). -/
structure Constraint where
  constraint : String
  reason : Option String
  negotiable : Bool
deriving DecidableEq

/-- Context for planning handoffs (plan.rs).  `progress_pct` is a Rust
`Option<u8>`, modelled as `Option Nat` bounded by 256. -/
structure PlanContext where
  goal : String
  requirements : List Requirement
  decisions : List Decision
  rejected_options : List RejectedOption
  open_questions : List OpenQuestion
  next_steps : List String
  constraints : List Constraint
  stakeholders : List String
  phase : PlanPhase
  progress_pct : Option Nat
deriving DecidableEq

/-! ## Data model (src/handoff/mode.rs) -/

/-- The three modes of handoff (mode.rs), serde-tagged with
`tag = "kind", content = "context"`. -/
inductive HandoffMode where
  | Deploy (ctx : DeployContext)
  | Debug (ctx : DebugContext)
  | Plan (ctx : PlanContext)
deriving DecidableEq

/-- `HandoffMode::kind` (mode.rs). -/
def HandoffMode.kind : HandoffMode → String
  | .Deploy _ => "deploy"
  | .Debug _ => "debug"
  | .Plan _ => "plan"

/-! ## Data model (src/context/mod.rs) -/

/-- Category of observation (context/mod.rs). -/
inductive ObservationCategory where
  | General
  | Pattern
  | Gotcha
  | Insight
  | Question
  | Risk
deriving DecidableEq

/-- A file that was read (context/mod.rs).  `read_order` is a Rust
`Option<u32>`. -/
structure FileRead where
  path : String
  purpose : Option String
  takeaways : List String
  read_order : Option Nat
deriving DecidableEq

/-- A file that was modified (context/mod.rs).  `lines_changed` is a
Rust `Option<u32>`. -/
structure FileModified where
  path : String
  change_summary : Option String
  lines_changed : Option Nat
deriving DecidableEq

/-- A command or tool that was run (context/mod.rs). -/
structure CommandRun where
  command : String
  purpose : Option String
  success : Bool
  notable_output : Option String
deriving DecidableEq

/-- An observation made during the session (context/mod.rs).
`importance` is a Rust `u8`. -/
structure Observation where
  note : String
  category : ObservationCategory
  importance : Nat
deriving DecidableEq

/-- A decision made during the session (context/mod.rs). -/
structure SessionDecision where
  decision : String
  why : String
  alternatives : List String
deriving DecidableEq

/-- Something that was tried but didn't work (context/mod.rs). -/
structure DeadEnd where
  approach : String
  reason : String
  revisit : Bool
deriving DecidableEq

/-- Session state - what the agent did during their work session
(context/mod.rs). -/
structure SessionState where
  started_at : Option DateTimeUtc
  ended_at : Option DateTimeUtc
  files_read : List FileRead
  files_modified : List FileModified
  files_created : List String
  commands_run : List CommandRun
  observations : List Observation
  decisions : List SessionDecision
  dead_ends : List DeadEnd
deriving DecidableEq

/-! ## Data model (src/handoff/mod.rs) -/

/-- Reference type of a git object (handoff/mod.rs). -/
inductive GitRefType where
  | Commit
  | Branch
  | PullRequest
  | Tag
deriving DecidableEq

/-- Reference to a git object (handoff/mod.rs). -/
structure GitRef where
  ref_type : GitRefType
  value : String
  remote : Option String
deriving DecidableEq

/-- A file with priority information for warm-up (handoff/mod.rs).
`rank` is a Rust `u8`. -/
structure PriorityFile where
  path : String
  reason : String
  focus : Option String
  rank : Nat
deriving DecidableEq

/-- Warm-up sequence to bootstrap the receiving agent (handoff/mod.rs).
`estimated_tokens` is a Rust `Option<u32>`. -/
structure WarmUpSequence where
  priority_files : List PriorityFile
  tldr : String
  must_know : List String
  suggested_start : Option String
  estimated_tokens : Option Nat
deriving DecidableEq

/-- A handoff package (handoff/mod.rs).  `id` is the hyphenated string
rendering of the `uuid::Uuid`. -/
structure Handoff where
  id : String
  mode : HandoffMode
  created_by : String
  created_at : DateTimeUtc
  summary : String
  session : SessionState
  warm_up : WarmUpSequence
  git_ref : Option GitRef
  tags : List String
deriving DecidableEq

/-! ## Serialization (serde derive, value level)

Each `encode`/`decode` pair mirrors the serde-derived serialization of
the corresponding Rust type: structs as objects keyed by field name in
declaration order, unit enums as their `snake_case` variant string,
`HandoffMode` with adjacent tagging (`tag = "kind"`,
`content = "context"`; the enum has no `rename_all`, so the tag values
are the variant names `Deploy`/`Debug`/`Plan` verbatim). -/

def Likelihood.encode : Likelihood → Json
  | .High => Json.str "high"
  | .Medium => Json.str "medium"
  | .Low => Json.str "low"
  | .Eliminated => Json.str "eliminated"

def Likelihood.decode : Json → Option Likelihood
  | Json.str "high" => some .High
  | Json.str "medium" => some .Medium
  | Json.str "low" => some .Low
  | Json.str "eliminated" => some .Eliminated
  | _ => none

def AttemptOutcome.encode : AttemptOutcome → Json
  | .Fixed => Json.str "fixed"
  | .Helped => Json.str "helped"
  | .NoEffect => Json.str "no_effect"
  | .MadeWorse => Json.str "made_worse"
  | .Inconclusive => Json.str "inconclusive"

def AttemptOutcome.decode : Json → Option AttemptOutcome
  | Json.str "fixed" => some .Fixed
  | Json.str "helped" => some .Helped
  | Json.str "no_effect" => some .NoEffect
  | Json.str "made_worse" => some .MadeWorse
  | Json.str "inconclusive" => some .Inconclusive
  | _ => none

def EvidenceKind.encode : EvidenceKind → Json
  | .Observation => Json.str "observation"
  | .LogEntry => Json.str "log_entry"
  | .ErrorMessage => Json.str "error_message"
  | .StackTrace => Json.str "stack_trace"
  | .Metric => Json.str "metric"
  | .UserReport => Json.str "user_report"
  | .Screenshot => Json.str "screenshot"

def EvidenceKind.decode : Json → Option EvidenceKind
  | Json.str "observation" => some .Observation
  | Json.str "log_entry" => some .LogEntry
  | Json.str "error_message" => some .ErrorMessage
  | Json.str "stack_trace" => some .StackTrace
  | Json.str "metric" => some .Metric
  | Json.str "user_report" => some .UserReport
  | Json.str "screenshot" => some .Screenshot
  | _ => none

def Confidence.encode : Confidence → Json
  | .High => Json.str "high"
  | .Medium => Json.str "medium"
  | .Low => Json.str "low"

def Confidence.decode : Json → Option Confidence
  | Json.str "high" => some .High
  | Json.str "medium" => some .Medium
  | Json.str "low" => some .Low
  | _ => none

def Priority.encode : Priority → Json
  | .Must => Json.str "must"
  | .Should => Json.str "should"
  | .Could => Json.str "could"
  | .Wont => Json.str "wont"

def Priority.decode : Json → Option Priority
  | Json.str "must" => some .Must
  | Json.str "should" => some .Should
  | Json.str "could" => some .Could
  | Json.str "wont" => some .Wont
  | _ => none

def PlanPhase.encode : PlanPhase → Json
  | .Discovery => Json.str "discovery"
  | .Requirements => Json.str "requirements"
  | .Design => Json.str "design"
  | .Review => Json.str "review"
  | .Ready => Json.str "ready"

def PlanPhase.decode : Json → Option PlanPhase
  | Json.str "discovery" => some .Discovery
  | Json.str "requirements" => some .Requirements
  | Json.str "design" => some .Design
  | Json.str "review" => some .Review
  | Json.str "ready" => some .Ready
  | _ => none

def ObservationCategory.encode : ObservationCategory → Json
  | .General => Json.str "general"
  | .Pattern => Json.str "pattern"
  | .Gotcha => Json.str "gotcha"
  | .Insight => Json.str "insight"
  | .Question => Json.str "question"
  | .Risk => Json.str "risk"

def ObservationCategory.decode : Json → Option ObservationCategory
  | Json.str "general" => some .General
  | Json.str "pattern" => some .Pattern
  | Json.str "gotcha" => some .Gotcha
  | Json.str "insight" => some .Insight
  | Json.str "question" => some .Question
  | Json.str "risk" => some .Risk
  | _ => none

def GitRefType.encode : GitRefType → Json
  | .Commit => Json.str "commit"
  | .Branch => Json.str "branch"
  | .PullRequest => Json.str "pull_request"
  | .Tag => Json.str "tag"

def GitRefType.decode : Json → Option GitRefType
  | Json.str "commit" => some .Commit
  | Json.str "branch" => some .Branch
  | Json.str "pull_request" => some .PullRequest
  | Json.str "tag" => some .Tag
  | _ => none

def Hypothesis.encode (h : Hypothesis) : Json :=
  Json.obj [
    ("theory", Json.str h.theory),
    ("support", encodeArr Json.str h.support),
    ("against", encodeArr Json.str h.against),
    ("likelihood", h.likelihood.encode)
  ]

def Hypothesis.decode (j : Json) : Option Hypothesis := do
  let theory ← decodeString (← j.getField "theory")
  let support ← decodeArr decodeString (← j.getField "support")
  let against ← decodeArr decodeString (← j.getField "against")
  let likelihood ← Likelihood.decode (← j.getField "likelihood")
  pure { theory := theory, support := support, against := against,
         likelihood := likelihood }

def Attempt.encode (a : Attempt) : Json :=
  Json.obj [
    ("what", Json.str a.what),
    ("result", Json.str a.result),
    ("outcome", a.outcome.encode)
  ]

def Attempt.decode (j : Json) : Option Attempt := do
  let what ← decodeString (← j.getField "what")
  let result ← decodeString (← j.getField "result")
  let outcome ← AttemptOutcome.decode (← j.getField "outcome")
  pure { what := what, result := result, outcome := outcome }

def Evidence.encode (e : Evidence) : Json :=
  Json.obj [
    ("kind", e.kind.encode),
    ("content", Json.str e.content),
    ("source", encodeOpt Json.str e.source),
    ("timestamp", encodeOpt Json.str e.timestamp)
  ]

def Evidence.decode (j : Json) : Option Evidence := do
  let kind ← EvidenceKind.decode (← j.getField "kind")
  let content ← decodeString (← j.getField "content")
  let source ← decodeOpt decodeString (← j.getField "source")
  let timestamp ← decodeOpt decodeString (← j.getField "timestamp")
  pure { kind := kind, content := content, source := source,
         timestamp := timestamp }

def SuspectedFile.encode (f : SuspectedFile) : Json :=
  Json.obj [
    ("path", Json.str f.path),
    ("reason", Json.str f.reason),
    ("lines", encodeOpt Json.str f.lines),
    ("confidence", f.confidence.encode)
  ]

def SuspectedFile.decode (j : Json) : Option SuspectedFile := do
  let path ← decodeString (← j.getField "path")
  let reason ← decodeString (← j.getField "reason")
  let lines ← decodeOpt decodeString (← j.getField "lines")
  let confidence ← Likelihood.decode (← j.getField "confidence")
  pure { path := path, reason := reason, lines := lines,
         confidence := confidence }

def DebugContext.encode (c : DebugContext) : Json :=
  Json.obj [
    ("problem_statement", Json.str c.problem_statement),
    ("symptoms", encodeArr Json.str c.symptoms),
    ("hypotheses", encodeArr Hypothesis.encode c.hypotheses),
    ("attempted", encodeArr Attempt.encode c.attempted),
    ("evidence", encodeArr Evidence.encode c.evidence),
    ("suspected_files", encodeArr SuspectedFile.encode c.suspected_files),
    ("reproduction_steps", encodeOpt Json.str c.reproduction_steps),
    ("working_theory", encodeOpt Json.str c.working_theory),
    ("next_to_try", encodeOpt Json.str c.next_to_try)
  ]

def DebugContext.decode (j : Json) : Option DebugContext :=
  match j.getField "problem_statement", j.getField "symptoms",
        j.getField "hypotheses", j.getField "attempted",
        j.getField "evidence", j.getField "suspected_files",
        j.getField "reproduction_steps", j.getField "working_theory",
        j.getField "next_to_try" with
  | some j1, some j2, some j3, some j4, some j5, some j6, some j7,
    some j8, some j9 =>
    match decodeString j1, decodeArr decodeString j2,
          decodeArr Hypothesis.decode j3, decodeArr Attempt.decode j4,
          decodeArr Evidence.decode j5, decodeArr SuspectedFile.decode j6,
          decodeOpt decodeString j7, decodeOpt decodeString j8,
          decodeOpt decodeString j9 with
    | some a1, some a2, some a3, some a4, some a5, some a6, some a7,
      some a8, some a9 =>
      some ⟨a1, a2, a3, a4, a5, a6, a7, a8, a9⟩
    | _, _, _, _, _, _, _, _, _ => none
  | _, _, _, _, _, _, _, _, _ => none

def ShipItem.encode (s : ShipItem) : Json :=
  Json.obj [
    ("item", Json.str s.item),
    ("description", Json.str s.description),
    ("confidence", s.confidence.encode)
  ]

def ShipItem.decode (j : Json) : Option ShipItem := do
  let item ← decodeString (← j.getField "item")
  let description ← decodeString (← j.getField "description")
  let confidence ← Confidence.decode (← j.getField "confidence")
  pure { item := item, description := description, confidence := confidence }

def EnvConcern.encode (e : EnvConcern) : Json :=
  Json.obj [
    ("environment", Json.str e.environment),
    ("concern", Json.str e.concern),
    ("mitigation", encodeOpt Json.str e.mitigation)
  ]

def EnvConcern.decode (j : Json) : Option EnvConcern := do
  let environment ← decodeString (← j.getField "environment")
  let concern ← decodeString (← j.getField "concern")
  let mitigation ← decodeOpt decodeString (← j.getField "mitigation")
  pure { environment := environment, concern := concern,
         mitigation := mitigation }

def Dependency.encode (d : Dependency) : Json :=
  Json.obj [
    ("name", Json.str d.name),
    ("reason", Json.str d.reason),
    ("in_place", Json.bool d.in_place)
  ]

def Dependency.decode (j : Json) : Option Dependency := do
  let name ← decodeString (← j.getField "name")
  let reason ← decodeString (← j.getField "reason")
  let in_place ← decodeBool (← j.getField "in_place")
  pure { name := name, reason := reason, in_place := in_place }

def BreakingChange.encode (b : BreakingChange) : Json :=
  Json.obj [
    ("what", Json.str b.what),
    ("affects", Json.str b.affects),
    ("migration", encodeOpt Json.str b.migration)
  ]

def BreakingChange.decode (j : Json) : Option BreakingChange := do
  let what ← decodeString (← j.getField "what")
  let affects ← decodeString (← j.getField "affects")
  let migration ← decodeOpt decodeString (← j.getField "migration")
  pure { what := what, affects := affects, migration := migration }

def ChecklistItem.encode (c : ChecklistItem) : Json :=
  Json.obj [
    ("item", Json.str c.item),
    ("done", Json.bool c.done)
  ]

def ChecklistItem.decode (j : Json) : Option ChecklistItem := do
  let item ← decodeString (← j.getField "item")
  let done ← decodeBool (← j.getField "done")
  pure { item := item, done := done }

def DeployContext.encode (c : DeployContext) : Json :=
  Json.obj [
    ("what_to_ship", encodeArr ShipItem.encode c.what_to_ship),
    ("verification_steps", encodeArr Json.str c.verification_steps),
    ("rollback_plan", encodeOpt Json.str c.rollback_plan),
    ("env_concerns", encodeArr EnvConcern.encode c.env_concerns),
    ("dependencies", encodeArr Dependency.encode c.dependencies),
    ("breaking_changes", encodeArr BreakingChange.encode c.breaking_changes),
    ("checklist", encodeArr ChecklistItem.encode c.checklist),
    ("monitoring_notes", encodeOpt Json.str c.monitoring_notes)
  ]

def DeployContext.decode (j : Json) : Option DeployContext :=
  match j.getField "what_to_ship", j.getField "verification_steps",
        j.getField "rollback_plan", j.getField "env_concerns",
        j.getField "dependencies", j.getField "breaking_changes",
        j.getField "checklist", j.getField "monitoring_notes" with
  | some j1, some j2, some j3, some j4, some j5, some j6, some j7,
    some j8 =>
    match decodeArr ShipItem.decode j1, decodeArr decodeString j2,
          decodeOpt decodeString j3, decodeArr EnvConcern.decode j4,
          decodeArr Dependency.decode j5, decodeArr BreakingChange.decode j6,
          decodeArr ChecklistItem.decode j7, decodeOpt decodeString j8 with
    | some a1, some a2, some a3, some a4, some a5, some a6, some a7,
      some a8 =>
      some ⟨a1, a2, a3, a4, a5, a6, a7, a8⟩
    | _, _, _, _, _, _, _, _ => none
  | _, _, _, _, _, _, _, _ => none

def Requirement.encode (r : Requirement) : Json :=
  Json.obj [
    ("description", Json.str r.description),
    ("priority", r.priority.encode),
    ("source", encodeOpt Json.str r.source),
    ("confirmed", Json.bool r.confirmed)
  ]

def Requirement.decode (j : Json) : Option Requirement := do
  let description ← decodeString (← j.getField "description")
  let priority ← Priority.decode (← j.getField "priority")
  let source ← decodeOpt decodeString (← j.getField "source")
  let confirmed ← decodeBool (← j.getField "confirmed")
  pure { description := description, priority := priority, source := source,
         confirmed := confirmed }

def Decision.encode (d : Decision) : Json :=
  Json.obj [
    ("decision", Json.str d.decision),
    ("rationale", Json.str d.rationale),
    ("context", encodeOpt Json.str d.context),
    ("reversible", Json.bool d.reversible)
  ]

def Decision.decode (j : Json) : Option Decision := do
  let decision ← decodeString (← j.getField "decision")
  let rationale ← decodeString (← j.getField "rationale")
  let context ← decodeOpt decodeString (← j.getField "context")
  let reversible ← decodeBool (← j.getField "reversible")
  pure { decision := decision, rationale := rationale, context := context,
         reversible := reversible }

def RejectedOption.encode (r : RejectedOption) : Json :=
  Json.obj [
    ("option", Json.str r.option),
    ("reason", Json.str r.reason),
    ("reconsiderable", Json.bool r.reconsiderable)
  ]

def RejectedOption.decode (j : Json) : Option RejectedOption := do
  let option ← decodeString (← j.getField "option")
  let reason ← decodeString (← j.getField "reason")
  let reconsiderable ← decodeBool (← j.getField "reconsiderable")
  pure { option := option, reason := reason, reconsiderable := reconsiderable }

def OpenQuestion.encode (q : OpenQuestion) : Json :=
  Json.obj [
    ("question", Json.str q.question),
    ("importance", Json.str q.importance),
    ("ask_who", encodeOpt Json.str q.ask_who),
    ("blocking", Json.bool q.blocking)
  ]

def OpenQuestion.decode (j : Json) : Option OpenQuestion := do
  let question ← decodeString (← j.getField "question")
  let importance ← decodeString (← j.getField "importance")
  let ask_who ← decodeOpt decodeString (← j.getField "ask_who")
  let blocking ← decodeBool (← j.getField "blocking")
  pure { question := question, importance := importance, ask_who := ask_who,
         blocking := blocking }

def Constraint.encode (c : Constraint) : Json :=
  Json.obj [
    ("constraint", Json.str c.constraint),
    ("reason", encodeOpt Json.str c.reason),
    ("negotiable", Json.bool c.negotiable)
  ]

def Constraint.decode (j : Json) : Option Constraint := do
  let c ← decodeString (← j.getField "constraint")
  let reason ← decodeOpt decodeString (← j.getField "reason")
  let negotiable ← decodeBool (← j.getField "negotiable")
  pure { constraint := c, reason := reason, negotiable := negotiable }

def PlanContext.encode (c : PlanContext) : Json :=
  Json.obj [
    ("goal", Json.str c.goal),
    ("requirements", encodeArr Requirement.encode c.requirements),
    ("decisions", encodeArr Decision.encode c.decisions),
    ("rejected_options", encodeArr RejectedOption.encode c.rejected_options),
    ("open_questions", encodeArr OpenQuestion.encode c.open_questions),
    ("next_steps", encodeArr Json.str c.next_steps),
    ("constraints", encodeArr Constraint.encode c.constraints),
    ("stakeholders", encodeArr Json.str c.stakeholders),
    ("phase", c.phase.encode),
    ("progress_pct", encodeOpt encodeNat c.progress_pct)
  ]

def PlanContext.decode (j : Json) : Option PlanContext :=
  match j.getField "goal", j.getField "requirements", j.getField "decisions",
        j.getField "rejected_options", j.getField "open_questions",
        j.getField "next_steps", j.getField "constraints",
        j.getField "stakeholders", j.getField "phase",
        j.getField "progress_pct" with
  | some j1, some j2, some j3, some j4, some j5, some j6, some j7,
    some j8, some j9, some j10 =>
    match decodeString j1, decodeArr Requirement.decode j2,
          decodeArr Decision.decode j3, decodeArr RejectedOption.decode j4,
          decodeArr OpenQuestion.decode j5, decodeArr decodeString j6,
          decodeArr Constraint.decode j7, decodeArr decodeString j8,
          PlanPhase.decode j9, decodeOpt decodeU8 j10 with
    | some a1, some a2, some a3, some a4, some a5, some a6, some a7,
      some a8, some a9, some a10 =>
      some ⟨a1, a2, a3, a4, a5, a6, a7, a8, a9, a10⟩
    | _, _, _, _, _, _, _, _, _, _ => none
  | _, _, _, _, _, _, _, _, _, _ => none

def HandoffMode.encode : HandoffMode → Json
  | .Deploy ctx =>
    Json.obj [("kind", Json.str "Deploy"), ("context", ctx.encode)]
  | .Debug ctx =>
    Json.obj [("kind", Json.str "Debug"), ("context", ctx.encode)]
  | .Plan ctx =>
    Json.obj [("kind", Json.str "Plan"), ("context", ctx.encode)]

def HandoffMode.decode (j : Json) : Option HandoffMode :=
  match j.getField "kind", j.getField "context" with
  | some (Json.str "Deploy"), some ctx => (DeployContext.decode ctx).map .Deploy
  | some (Json.str "Debug"), some ctx => (DebugContext.decode ctx).map .Debug
  | some (Json.str "Plan"), some ctx => (PlanContext.decode ctx).map .Plan
  | _, _ => none

def FileRead.encode (f : FileRead) : Json :=
  Json.obj [
    ("path", Json.str f.path),
    ("purpose", encodeOpt Json.str f.purpose),
    ("takeaways", encodeArr Json.str f.takeaways),
    ("read_order", encodeOpt encodeNat f.read_order)
  ]

def FileRead.decode (j : Json) : Option FileRead := do
  let path ← decodeString (← j.getField "path")
  let purpose ← decodeOpt decodeString (← j.getField "purpose")
  let takeaways ← decodeArr decodeString (← j.getField "takeaways")
  let read_order ← decodeOpt decodeU32 (← j.getField "read_order")
  pure { path := path, purpose := purpose, takeaways := takeaways,
         read_order := read_order }

def FileModified.encode (f : FileModified) : Json :=
  Json.obj [
    ("path", Json.str f.path),
    ("change_summary", encodeOpt Json.str f.change_summary),
    ("lines_changed", encodeOpt encodeNat f.lines_changed)
  ]

def FileModified.decode (j : Json) : Option FileModified := do
  let path ← decodeString (← j.getField "path")
  let change_summary ← decodeOpt decodeString (← j.getField "change_summary")
  let lines_changed ← decodeOpt decodeU32 (← j.getField "lines_changed")
  pure { path := path, change_summary := change_summary,
         lines_changed := lines_changed }

def CommandRun.encode (c : CommandRun) : Json :=
  Json.obj [
    ("command", Json.str c.command),
    ("purpose", encodeOpt Json.str c.purpose),
    ("success", Json.bool c.success),
    ("notable_output", encodeOpt Json.str c.notable_output)
  ]

def CommandRun.decode (j : Json) : Option CommandRun := do
  let command ← decodeString (← j.getField "command")
  let purpose ← decodeOpt decodeString (← j.getField "purpose")
  let success ← decodeBool (← j.getField "success")
  let notable_output ← decodeOpt decodeString (← j.getField "notable_output")
  pure { command := command, purpose := purpose, success := success,
         notable_output := notable_output }

def Observation.encode (o : Observation) : Json :=
  Json.obj [
    ("note", Json.str o.note),
    ("category", o.category.encode),
    ("importance", encodeNat o.importance)
  ]

def Observation.decode (j : Json) : Option Observation := do
  let note ← decodeString (← j.getField "note")
  let category ← ObservationCategory.decode (← j.getField "category")
  let importance ← decodeU8 (← j.getField "importance")
  pure { note := note, category := category, importance := importance }

def SessionDecision.encode (d : SessionDecision) : Json :=
  Json.obj [
    ("decision", Json.str d.decision),
    ("why", Json.str d.why),
    ("alternatives", encodeArr Json.str d.alternatives)
  ]

def SessionDecision.decode (j : Json) : Option SessionDecision := do
  let decision ← decodeString (← j.getField "decision")
  let why ← decodeString (← j.getField "why")
  let alternatives ← decodeArr decodeString (← j.getField "alternatives")
  pure { decision := decision, why := why, alternatives := alternatives }

def DeadEnd.encode (d : DeadEnd) : Json :=
  Json.obj [
    ("approach", Json.str d.approach),
    ("reason", Json.str d.reason),
    ("revisit", Json.bool d.revisit)
  ]

def DeadEnd.decode (j : Json) : Option DeadEnd := do
  let approach ← decodeString (← j.getField "approach")
  let reason ← decodeString (← j.getField "reason")
  let revisit ← decodeBool (← j.getField "revisit")
  pure { approach := approach, reason := reason, revisit := revisit }

def SessionState.encode (s : SessionState) : Json :=
  Json.obj [
    ("started_at", encodeOpt DateTimeUtc.encode s.started_at),
    ("ended_at", encodeOpt DateTimeUtc.encode s.ended_at),
    ("files_read", encodeArr FileRead.encode s.files_read),
    ("files_modified", encodeArr FileModified.encode s.files_modified),
    ("files_created", encodeArr Json.str s.files_created),
    ("commands_run", encodeArr CommandRun.encode s.commands_run),
    ("observations", encodeArr Observation.encode s.observations),
    ("decisions", encodeArr SessionDecision.encode s.decisions),
    ("dead_ends", encodeArr DeadEnd.encode s.dead_ends)
  ]

def SessionState.decode (j : Json) : Option SessionState :=
  match j.getField "started_at", j.getField "ended_at",
        j.getField "files_read", j.getField "files_modified",
        j.getField "files_created", j.getField "commands_run",
        j.getField "observations", j.getField "decisions",
        j.getField "dead_ends" with
  | some j1, some j2, some j3, some j4, some j5, some j6, some j7,
    some j8, some j9 =>
    match decodeOpt DateTimeUtc.decode j1, decodeOpt DateTimeUtc.decode j2,
          decodeArr FileRead.decode j3, decodeArr FileModified.decode j4,
          decodeArr decodeString j5, decodeArr CommandRun.decode j6,
          decodeArr Observation.decode j7, decodeArr SessionDecision.decode j8,
          decodeArr DeadEnd.decode j9 with
    | some a1, some a2, some a3, some a4, some a5, some a6, some a7,
      some a8, some a9 =>
      some ⟨a1, a2, a3, a4, a5, a6, a7, a8, a9⟩
    | _, _, _, _, _, _, _, _, _ => none
  | _, _, _, _, _, _, _, _, _ => none

def GitRef.encode (g : GitRef) : Json :=
  Json.obj [
    ("ref_type", g.ref_type.encode),
    ("value", Json.str g.value),
    ("remote", encodeOpt Json.str g.remote)
  ]

def GitRef.decode (j : Json) : Option GitRef := do
  let rt ← GitRefType.decode (← j.getField "ref_type")
  let value ← decodeString (← j.getField "value")
  let remote ← decodeOpt decodeString (← j.getField "remote")
  pure { ref_type := rt, value := value, remote := remote }

def PriorityFile.encode (p : PriorityFile) : Json :=
  Json.obj [
    ("path", Json.str p.path),
    ("reason", Json.str p.reason),
    ("focus", encodeOpt Json.str p.focus),
    ("rank", encodeNat p.rank)
  ]

def PriorityFile.decode (j : Json) : Option PriorityFile := do
  let path ← decodeString (← j.getField "path")
  let reason ← decodeString (← j.getField "reason")
  let focus ← decodeOpt decodeString (← j.getField "focus")
  let rank ← decodeU8 (← j.getField "rank")
  pure { path := path, reason := reason, focus := focus, rank := rank }

def WarmUpSequence.encode (w : WarmUpSequence) : Json :=
  Json.obj [
    ("priority_files", encodeArr PriorityFile.encode w.priority_files),
    ("tldr", Json.str w.tldr),
    ("must_know", encodeArr Json.str w.must_know),
    ("suggested_start", encodeOpt Json.str w.suggested_start),
    ("estimated_tokens", encodeOpt encodeNat w.estimated_tokens)
  ]

def WarmUpSequence.decode (j : Json) : Option WarmUpSequence := do
  let priority_files ← decodeArr PriorityFile.decode (← j.getField "priority_files")
  let tldr ← decodeString (← j.getField "tldr")
  let must_know ← decodeArr decodeString (← j.getField "must_know")
  let suggested_start ← decodeOpt decodeString (← j.getField "suggested_start")
  let estimated_tokens ← decodeOpt decodeU32 (← j.getField "estimated_tokens")
  pure { priority_files := priority_files, tldr := tldr,
         must_know := must_know, suggested_start := suggested_start,
         estimated_tokens := estimated_tokens }

/-- `Handoff::to_json` (handoff/mod.rs lines 223-226), at the JSON value
level: `serde_json::to_string_pretty` cannot fail on this type, so the
`Result` wrapper is dropped. -/
def Handoff.to_json (h : Handoff) : Json :=
  Json.obj [
    ("id", Json.str h.id),
    ("mode", h.mode.encode),
    ("created_by", Json.str h.created_by),
    ("created_at", h.created_at.encode),
    ("summary", Json.str h.summary),
    ("session", h.session.encode),
    ("warm_up", h.warm_up.encode),
    ("git_ref", encodeOpt GitRef.encode h.git_ref),
    ("tags", encodeArr Json.str h.tags)
  ]

/-- `Handoff::from_json` (handoff/mod.rs lines 229-231), at the JSON
value level: `none` models a `serde_json::Error`. -/
def Handoff.from_json (j : Json) : Option Handoff :=
  match j.getField "id", j.getField "mode", j.getField "created_by",
        j.getField "created_at", j.getField "summary",
        j.getField "session", j.getField "warm_up",
        j.getField "git_ref", j.getField "tags" with
  | some j1, some j2, some j3, some j4, some j5, some j6, some j7,
    some j8, some j9 =>
    match decodeString j1, HandoffMode.decode j2, decodeString j3,
          DateTimeUtc.decode j4, decodeString j5, SessionState.decode j6,
          WarmUpSequence.decode j7, decodeOpt GitRef.decode j8,
          decodeArr decodeString j9 with
    | some a1, some a2, some a3, some a4, some a5, some a6, some a7,
      some a8, some a9 =>
      some ⟨a1, a2, a3, a4, a5, a6, a7, a8, a9⟩
    | _, _, _, _, _, _, _, _, _ => none
  | _, _, _, _, _, _, _, _, _ => none

/-! ## Well-formedness: the bounds every Rust value satisfies by type
(`u8` fields below 256, `u32` fields below 2^32). -/

def PriorityFile.wf (p : PriorityFile) : Bool := decide (p.rank < 256)

def WarmUpSequence.wf (w : WarmUpSequence) : Bool :=
  w.priority_files.all PriorityFile.wf &&
  w.estimated_tokens.all (fun n => decide (n < 4294967296))

def FileRead.wf (f : FileRead) : Bool :=
  f.read_order.all (fun n => decide (n < 4294967296))

def FileModified.wf (f : FileModified) : Bool :=
  f.lines_changed.all (fun n => decide (n < 4294967296))

def Observation.wf (o : Observation) : Bool := decide (o.importance < 256)

def SessionState.wf (s : SessionState) : Bool :=
  s.files_read.all FileRead.wf &&
  s.files_modified.all FileModified.wf &&
  s.observations.all Observation.wf

def PlanContext.wf (c : PlanContext) : Bool :=
  c.progress_pct.all (fun n => decide (n < 256))

def HandoffMode.wf : HandoffMode → Bool
  | .Plan ctx => ctx.wf
  | _ => true

def Handoff.wf (h : Handoff) : Bool :=
  h.mode.wf && h.session.wf && h.warm_up.wf

/-! ## Round-trip lemmas for the generic codec combinators -/

theorem decodeEach_map (d : Json → Option α) (e : α → Json) :
    ∀ xs : List α, (∀ a ∈ xs, d (e a) = some a) →
      decodeEach d (xs.map e) = some xs := by
  intro xs h
  induction xs with
  | nil => rfl
  | cons a rest ih =>
    have ha := h a (by simp)
    have hrest := ih (fun b hb => h b (by simp [hb]))
    simp [List.map, decodeEach, ha, hrest]

theorem decodeArr_map (d : Json → Option α) (e : α → Json) (xs : List α)
    (h : ∀ a ∈ xs, d (e a) = some a) :
    decodeArr d (encodeArr e xs) = some xs := by
  simp [decodeArr, encodeArr, decodeEach_map d e xs h]

theorem decodeArr_str (xs : List String) :
    decodeArr decodeString (encodeArr Json.str xs) = some xs :=
  decodeArr_map _ _ xs (fun _ _ => rfl)

theorem decodeOpt_str (x : Option String) :
    decodeOpt decodeString (encodeOpt Json.str x) = some x := by
  cases x <;> rfl

theorem decodeOpt_dt (x : Option DateTimeUtc) :
    decodeOpt DateTimeUtc.decode (encodeOpt DateTimeUtc.encode x) = some x := by
  cases x <;> rfl

theorem decodeU8_encode (n : Nat) (h : n < 256) :
    decodeU8 (encodeNat n) = some n := by
  simp only [encodeNat, decodeU8]
  rw [if_pos ⟨by omega, by omega⟩]
  simp

theorem decodeU32_encode (n : Nat) (h : n < 4294967296) :
    decodeU32 (encodeNat n) = some n := by
  simp only [encodeNat, decodeU32]
  rw [if_pos ⟨by omega, by omega⟩]
  simp

theorem decodeOpt_u8 (x : Option Nat) (h : ∀ n ∈ x, n < 256) :
    decodeOpt decodeU8 (encodeOpt encodeNat x) = some x := by
  cases x with
  | none => rfl
  | some n =>
    have hd := decodeU8_encode n (h n rfl)
    simp only [encodeNat] at hd
    simp [encodeOpt, encodeNat, decodeOpt, hd]

theorem decodeOpt_u32 (x : Option Nat) (h : ∀ n ∈ x, n < 4294967296) :
    decodeOpt decodeU32 (encodeOpt encodeNat x) = some x := by
  cases x with
  | none => rfl
  | some n =>
    have hd := decodeU32_encode n (h n rfl)
    simp only [encodeNat] at hd
    simp [encodeOpt, encodeNat, decodeOpt, hd]

/-! ## Round-trip lemmas for the model types -/

theorem Likelihood_rt (x : Likelihood) : Likelihood.decode x.encode = some x := by
  cases x <;> rfl

theorem AttemptOutcome_rt (x : AttemptOutcome) :
    AttemptOutcome.decode x.encode = some x := by
  cases x <;> rfl

theorem EvidenceKind_rt (x : EvidenceKind) :
    EvidenceKind.decode x.encode = some x := by
  cases x <;> rfl

theorem Confidence_rt (x : Confidence) :
    Confidence.decode x.encode = some x := by
  cases x <;> rfl

theorem Priority_rt (x : Priority) : Priority.decode x.encode = some x := by
  cases x <;> rfl

theorem PlanPhase_rt (x : PlanPhase) : PlanPhase.decode x.encode = some x := by
  cases x <;> rfl

theorem ObservationCategory_rt (x : ObservationCategory) :
    ObservationCategory.decode x.encode = some x := by
  cases x <;> rfl

theorem GitRefType_rt (x : GitRefType) :
    GitRefType.decode x.encode = some x := by
  cases x <;> rfl

theorem Hypothesis_rt (h : Hypothesis) :
    Hypothesis.decode h.encode = some h := by
  cases h with
  | mk theory support against likelihood =>
    simp [Hypothesis.encode, Hypothesis.decode, Json.getField, Json.lookupField,
      decodeArr_str, Likelihood_rt, decodeString, bind, Option.bind]

theorem Attempt_rt (a : Attempt) : Attempt.decode a.encode = some a := by
  cases a with
  | mk what result outcome =>
    simp [Attempt.encode, Attempt.decode, Json.getField, Json.lookupField,
      AttemptOutcome_rt, decodeString, bind, Option.bind]

theorem Evidence_rt (e : Evidence) : Evidence.decode e.encode = some e := by
  cases e with
  | mk kind content source timestamp =>
    simp [Evidence.encode, Evidence.decode, Json.getField, Json.lookupField,
      EvidenceKind_rt, decodeOpt_str, decodeString, bind, Option.bind]

theorem SuspectedFile_rt (f : SuspectedFile) :
    SuspectedFile.decode f.encode = some f := by
  cases f with
  | mk path reason lines confidence =>
    simp [SuspectedFile.encode, SuspectedFile.decode, Json.getField, Json.lookupField,
      Likelihood_rt, decodeOpt_str, decodeString, bind, Option.bind]

theorem ShipItem_rt (s : ShipItem) : ShipItem.decode s.encode = some s := by
  cases s with
  | mk item description confidence =>
    simp [ShipItem.encode, ShipItem.decode, Json.getField, Json.lookupField,
      Confidence_rt, decodeString, bind, Option.bind]

theorem EnvConcern_rt (e : EnvConcern) : EnvConcern.decode e.encode = some e := by
  cases e with
  | mk environment concern mitigation =>
    simp [EnvConcern.encode, EnvConcern.decode, Json.getField, Json.lookupField,
      decodeOpt_str, decodeString, bind, Option.bind]

theorem Dependency_rt (d : Dependency) : Dependency.decode d.encode = some d := by
  cases d with
  | mk name reason in_place =>
    simp [Dependency.encode, Dependency.decode, Json.getField, Json.lookupField,
      decodeString, decodeBool, bind, Option.bind]

theorem BreakingChange_rt (b : BreakingChange) :
    BreakingChange.decode b.encode = some b := by
  cases b with
  | mk what affects migration =>
    simp [BreakingChange.encode, BreakingChange.decode, Json.getField, Json.lookupField,
      decodeOpt_str, decodeString, bind, Option.bind]

theorem ChecklistItem_rt (c : ChecklistItem) :
    ChecklistItem.decode c.encode = some c := by
  cases c with
  | mk item done =>
    simp [ChecklistItem.encode, ChecklistItem.decode, Json.getField, Json.lookupField,
      decodeString, decodeBool, bind, Option.bind]

theorem Requirement_rt (r : Requirement) :
    Requirement.decode r.encode = some r := by
  cases r with
  | mk description priority source confirmed =>
    simp [Requirement.encode, Requirement.decode, Json.getField, Json.lookupField,
      Priority_rt, decodeOpt_str, decodeString, decodeBool, bind, Option.bind]

theorem Decision_rt (d : Decision) : Decision.decode d.encode = some d := by
  cases d with
  | mk decision rationale context reversible =>
    simp [Decision.encode, Decision.decode, Json.getField, Json.lookupField,
      decodeOpt_str, decodeString, decodeBool, bind, Option.bind]

theorem RejectedOption_rt (r : RejectedOption) :
    RejectedOption.decode r.encode = some r := by
  cases r with
  | mk option reason reconsiderable =>
    simp [RejectedOption.encode, RejectedOption.decode, Json.getField, Json.lookupField,
      decodeString, decodeBool, bind, Option.bind]

theorem OpenQuestion_rt (q : OpenQuestion) :
    OpenQuestion.decode q.encode = some q := by
  cases q with
  | mk question importance ask_who blocking =>
    simp [OpenQuestion.encode, OpenQuestion.decode, Json.getField, Json.lookupField,
      decodeOpt_str, decodeString, decodeBool, bind, Option.bind]

theorem Constraint_rt (c : Constraint) : Constraint.decode c.encode = some c := by
  cases c with
  | mk cstr reason negotiable =>
    simp [Constraint.encode, Constraint.decode, Json.getField, Json.lookupField,
      decodeOpt_str, decodeString, decodeBool, bind, Option.bind]

theorem CommandRun_rt (c : CommandRun) : CommandRun.decode c.encode = some c := by
  cases c with
  | mk command purpose success notable_output =>
    simp [CommandRun.encode, CommandRun.decode, Json.getField, Json.lookupField,
      decodeOpt_str, decodeString, decodeBool, bind, Option.bind]

theorem SessionDecision_rt (d : SessionDecision) :
    SessionDecision.decode d.encode = some d := by
  cases d with
  | mk decision why alternatives =>
    simp [SessionDecision.encode, SessionDecision.decode, Json.getField, Json.lookupField,
      decodeArr_str, decodeString, bind, Option.bind]

theorem DeadEnd_rt (d : DeadEnd) : DeadEnd.decode d.encode = some d := by
  cases d with
  | mk approach reason revisit =>
    simp [DeadEnd.encode, DeadEnd.decode, Json.getField, Json.lookupField,
      decodeString, decodeBool, bind, Option.bind]

theorem GitRef_rt (g : GitRef) : GitRef.decode g.encode = some g := by
  cases g with
  | mk rt value remote =>
    simp [GitRef.encode, GitRef.decode, Json.getField, Json.lookupField,
      GitRefType_rt, decodeOpt_str, decodeString, bind, Option.bind]

theorem FileModified_rt (f : FileModified)
    (hb : ∀ n ∈ f.lines_changed, n < 4294967296) :
    FileModified.decode f.encode = some f := by
  cases f with
  | mk path change_summary lines_changed =>
    simp [FileModified.encode, FileModified.decode, Json.getField, Json.lookupField,
      decodeOpt_str, decodeOpt_u32 lines_changed hb, decodeString, bind, Option.bind]

theorem FileRead_rt (f : FileRead)
    (hb : ∀ n ∈ f.read_order, n < 4294967296) :
    FileRead.decode f.encode = some f := by
  cases f with
  | mk path purpose takeaways read_order =>
    simp [FileRead.encode, FileRead.decode, Json.getField, Json.lookupField,
      decodeOpt_str, decodeArr_str, decodeOpt_u32 read_order hb, decodeString,
      bind, Option.bind]

theorem Observation_rt (o : Observation) (hb : o.importance < 256) :
    Observation.decode o.encode = some o := by
  cases o with
  | mk note category importance =>
    simp [Observation.encode, Observation.decode, Json.getField, Json.lookupField,
      ObservationCategory_rt, decodeU8_encode importance hb,
      decodeString, bind, Option.bind]

theorem PriorityFile_rt (p : PriorityFile) (hb : p.rank < 256) :
    PriorityFile.decode p.encode = some p := by
  cases p with
  | mk path reason focus rank =>
    simp [PriorityFile.encode, PriorityFile.decode, Json.getField, Json.lookupField,
      decodeOpt_str, decodeU8_encode rank hb, decodeString, bind, Option.bind]

theorem DateTimeUtc_rt (t : DateTimeUtc) :
    DateTimeUtc.decode t.encode = some t := by
  cases t
  rfl

theorem decodeOpt_encodeOpt (d : Json → Option α) (e : α → Json)
    (hrt : ∀ a, d (e a) = some a) (hnn : ∀ a, e a ≠ Json.null) (x : Option α) :
    decodeOpt d (encodeOpt e x) = some x := by
  cases x with
  | none => rfl
  | some a =>
    have h1 := hrt a
    have h2 := hnn a
    show decodeOpt d (e a) = some (some a)
    cases he : e a with
    | null => exact absurd he h2
    | bool b => rw [he] at h1; simp [decodeOpt, h1]
    | num n => rw [he] at h1; simp [decodeOpt, h1]
    | str s => rw [he] at h1; simp [decodeOpt, h1]
    | arr xs => rw [he] at h1; simp [decodeOpt, h1]
    | obj fs => rw [he] at h1; simp [decodeOpt, h1]

theorem decodeOpt_gitref (x : Option GitRef) :
    decodeOpt GitRef.decode (encodeOpt GitRef.encode x) = some x :=
  decodeOpt_encodeOpt GitRef.decode GitRef.encode GitRef_rt
    (fun _ h => Json.noConfusion h) x

theorem optAll_lt {o : Option Nat} {b : Nat}
    (h : o.all (fun n => decide (n < b)) = true) : ∀ n ∈ o, n < b := by
  intro n hn
  rw [Option.mem_def] at hn
  subst hn
  simpa [Option.all] using h

theorem DebugContext_rt (c : DebugContext) :
    DebugContext.decode c.encode = some c := by
  cases c with
  | mk p sy hy tr ev su re wt nt =>
    simp [DebugContext.encode, DebugContext.decode, Json.getField, Json.lookupField,
      decodeArr_map Hypothesis.decode Hypothesis.encode hy
        (fun a _ => Hypothesis_rt a),
      decodeArr_map Attempt.decode Attempt.encode tr
        (fun a _ => Attempt_rt a),
      decodeArr_map Evidence.decode Evidence.encode ev
        (fun a _ => Evidence_rt a),
      decodeArr_map SuspectedFile.decode SuspectedFile.encode su
        (fun a _ => SuspectedFile_rt a),
      decodeArr_str, decodeOpt_str, decodeString]

theorem DeployContext_rt (c : DeployContext) :
    DeployContext.decode c.encode = some c := by
  cases c with
  | mk ws vs rp ec dp bc cl mn =>
    simp [DeployContext.encode, DeployContext.decode, Json.getField, Json.lookupField,
      decodeArr_map ShipItem.decode ShipItem.encode ws
        (fun a _ => ShipItem_rt a),
      decodeArr_map EnvConcern.decode EnvConcern.encode ec
        (fun a _ => EnvConcern_rt a),
      decodeArr_map Dependency.decode Dependency.encode dp
        (fun a _ => Dependency_rt a),
      decodeArr_map BreakingChange.decode BreakingChange.encode bc
        (fun a _ => BreakingChange_rt a),
      decodeArr_map ChecklistItem.decode ChecklistItem.encode cl
        (fun a _ => ChecklistItem_rt a),
      decodeArr_str, decodeOpt_str, decodeString]

theorem PlanContext_rt (c : PlanContext) (hc : c.wf = true) :
    PlanContext.decode c.encode = some c := by
  cases c with
  | mk gl rq dc ro oq ns cs sk ph pp =>
    have hb : ∀ n ∈ pp, n < 256 := optAll_lt hc
    simp [PlanContext.encode, PlanContext.decode, Json.getField, Json.lookupField,
      decodeArr_map Requirement.decode Requirement.encode rq
        (fun a _ => Requirement_rt a),
      decodeArr_map Decision.decode Decision.encode dc
        (fun a _ => Decision_rt a),
      decodeArr_map RejectedOption.decode RejectedOption.encode ro
        (fun a _ => RejectedOption_rt a),
      decodeArr_map OpenQuestion.decode OpenQuestion.encode oq
        (fun a _ => OpenQuestion_rt a),
      decodeArr_map Constraint.decode Constraint.encode cs
        (fun a _ => Constraint_rt a),
      decodeArr_str, decodeOpt_str, PlanPhase_rt,
      decodeOpt_u8 pp hb, decodeString]

theorem HandoffMode_rt (m : HandoffMode) (hm : m.wf = true) :
    HandoffMode.decode m.encode = some m := by
  cases m with
  | Deploy ctx =>
    simp [HandoffMode.encode, HandoffMode.decode, Json.getField, Json.lookupField,
      DeployContext_rt]
  | Debug ctx =>
    simp [HandoffMode.encode, HandoffMode.decode, Json.getField, Json.lookupField,
      DebugContext_rt]
  | Plan ctx =>
    simp [HandoffMode.encode, HandoffMode.decode, Json.getField, Json.lookupField,
      PlanContext_rt ctx hm]

theorem SessionState_rt (s : SessionState) (hs : s.wf = true) :
    SessionState.decode s.encode = some s := by
  cases s with
  | mk sa ea fr fm fc cr ob dc de =>
    simp only [SessionState.wf, Bool.and_eq_true, List.all_eq_true] at hs
    obtain ⟨⟨h1, h2⟩, h3⟩ := hs
    have h1' : ∀ f ∈ fr, ∀ n ∈ f.read_order, n < 4294967296 := fun f hf =>
      optAll_lt (by simpa [FileRead.wf] using h1 f hf)
    have h2' : ∀ f ∈ fm, ∀ n ∈ f.lines_changed, n < 4294967296 := fun f hf =>
      optAll_lt (by simpa [FileModified.wf] using h2 f hf)
    have h3' : ∀ o ∈ ob, o.importance < 256 := fun o ho =>
      of_decide_eq_true (by simpa [Observation.wf] using h3 o ho)
    simp [SessionState.encode, SessionState.decode, Json.getField, Json.lookupField,
      decodeOpt_dt,
      decodeArr_map FileRead.decode FileRead.encode fr
        (fun a ha => FileRead_rt a (h1' a ha)),
      decodeArr_map FileModified.decode FileModified.encode fm
        (fun a ha => FileModified_rt a (h2' a ha)),
      decodeArr_map CommandRun.decode CommandRun.encode cr
        (fun a _ => CommandRun_rt a),
      decodeArr_map Observation.decode Observation.encode ob
        (fun a ha => Observation_rt a (h3' a ha)),
      decodeArr_map SessionDecision.decode SessionDecision.encode dc
        (fun a _ => SessionDecision_rt a),
      decodeArr_map DeadEnd.decode DeadEnd.encode de
        (fun a _ => DeadEnd_rt a),
      decodeArr_str, decodeString]

theorem WarmUpSequence_rt (w : WarmUpSequence) (hw : w.wf = true) :
    WarmUpSequence.decode w.encode = some w := by
  cases w with
  | mk pfs tl mk ss et =>
    simp only [WarmUpSequence.wf, Bool.and_eq_true, List.all_eq_true] at hw
    obtain ⟨h1, h2⟩ := hw
    have h1' : ∀ pf ∈ pfs, pf.rank < 256 := fun pf hpf =>
      of_decide_eq_true (by simpa [PriorityFile.wf] using h1 pf hpf)
    have h2' : ∀ n ∈ et, n < 4294967296 := optAll_lt h2
    simp [WarmUpSequence.encode, WarmUpSequence.decode, Json.getField, Json.lookupField,
      decodeArr_map PriorityFile.decode PriorityFile.encode pfs
        (fun a ha => PriorityFile_rt a (h1' a ha)),
      decodeArr_str, decodeOpt_str, decodeOpt_u32 et h2',
      decodeString, bind, Option.bind]

/-! ## Session-state operations (src/context/mod.rs) -/

/-- `SessionState::observed` (context/mod.rs lines 184-191): appends an
observation with `importance.min(5)`. -/
def SessionState.observed (s : SessionState) (note : String)
    (category : ObservationCategory) (importance : Nat) : SessionState :=
  { s with observations :=
      s.observations ++ [{ note := note, category := category,
                           importance := importance.min 5 }] }

/-! ## Prompt compilation (the `compile` methods and
`Handoff::compile_prompt`)

Rust `{:?}` debug formatting of a unit enum variant prints the variant
name; these renderings are spelled out per enum.  The odd-looking
character sequences below reproduce byte-for-byte the mojibake literals
present in the source files. -/

def Likelihood.debugStr : Likelihood → String
  | .High => "High"
  | .Medium => "Medium"
  | .Low => "Low"
  | .Eliminated => "Eliminated"

def AttemptOutcome.debugStr : AttemptOutcome → String
  | .Fixed => "Fixed"
  | .Helped => "Helped"
  | .NoEffect => "NoEffect"
  | .MadeWorse => "MadeWorse"
  | .Inconclusive => "Inconclusive"

def EvidenceKind.debugStr : EvidenceKind → String
  | .Observation => "Observation"
  | .LogEntry => "LogEntry"
  | .ErrorMessage => "ErrorMessage"
  | .StackTrace => "StackTrace"
  | .Metric => "Metric"
  | .UserReport => "UserReport"
  | .Screenshot => "Screenshot"

def Confidence.debugStr : Confidence → String
  | .High => "High"
  | .Medium => "Medium"
  | .Low => "Low"

def Priority.debugStr : Priority → String
  | .Must => "Must"
  | .Should => "Should"
  | .Could => "Could"
  | .Wont => "Wont"

def PlanPhase.debugStr : PlanPhase → String
  | .Discovery => "Discovery"
  | .Requirements => "Requirements"
  | .Design => "Design"
  | .Review => "Review"
  | .Ready => "Ready"

def GitRefType.debugStr : GitRefType → String
  | .Commit => "Commit"
  | .Branch => "Branch"
  | .PullRequest => "PullRequest"
  | .Tag => "Tag"

/-- `DebugContext::compile` (debug.rs lines 209-311). -/
def DebugContext.compile (c : DebugContext) : String :=
  "## Troubleshooting Context\n\n" ++
  "### Problem\n\n" ++ c.problem_statement ++ "\n\n" ++
  (if c.symptoms.isEmpty then "" else
    "### Symptoms\n\n" ++
    String.join (c.symptoms.map (fun s => "- " ++ s ++ "\n")) ++ "\n") ++
  (match c.reproduction_steps with
   | some repro => "### How to Reproduce\n\n" ++ repro ++ "\n\n"
   | none => "") ++
  (match c.working_theory with
   | some theory => "### Current Working Theory\n\n" ++ theory ++ "\n\n"
   | none => "") ++
  (if c.hypotheses.isEmpty then "" else
    "### Hypotheses\n\n" ++
    String.join (c.hypotheses.map (fun h =>
      "- **" ++ h.likelihood.debugStr ++ "**: " ++ h.theory ++ "\n" ++
      String.join (h.support.map (fun s => "  - Supports: " ++ s ++ "\n")) ++
      String.join (h.against.map (fun a => "  - Against: " ++ a ++ "\n")))) ++
    "\n") ++
  (if c.attempted.isEmpty then "" else
    "### Already Tried\n\n" ++
    String.join (c.attempted.map (fun a =>
      "- **" ++ a.what ++ "** â†’ " ++ a.result ++ " (" ++
      a.outcome.debugStr ++ ")\n")) ++ "\n") ++
  (if c.evidence.isEmpty then "" else
    "### Evidence\n\n" ++
    String.join (c.evidence.map (fun e =>
      "**" ++ e.kind.debugStr ++ "**" ++
      (match e.source with
       | some src => " (from " ++ src ++ ")"
       | none => "") ++
      ":\n```\n" ++ e.content ++ "\n```\n\n"))) ++
  (if c.suspected_files.isEmpty then "" else
    "### Suspected Files\n\n" ++
    String.join (c.suspected_files.map (fun sf =>
      "- `" ++ sf.path ++ "` (" ++ sf.confidence.debugStr ++ "): " ++
      sf.reason ++ "\n" ++
      (match sf.lines with
       | some lines => "  Lines: " ++ lines ++ "\n"
       | none => ""))) ++ "\n") ++
  (match c.next_to_try with
   | some next => "### Suggested Next Step\n\n" ++ next ++ "\n\n"
   | none => "")

/-- `DeployContext::compile` (deploy.rs lines 150-215). -/
def DeployContext.compile (c : DeployContext) : String :=
  "## Deployment Context\n\n" ++
  (if c.what_to_ship.isEmpty then "" else
    "### Ready to Ship\n\n" ++
    String.join (c.what_to_ship.map (fun item =>
      "- **" ++ item.item ++ "** (" ++ item.confidence.debugStr ++ "): " ++
      item.description ++ "\n")) ++ "\n") ++
  (if c.verification_steps.isEmpty then "" else
    "### Verification Steps\n\n" ++
    String.join (c.verification_steps.enum.map (fun p =>
      toString (p.1 + 1) ++ ". " ++ p.2 ++ "\n")) ++ "\n") ++
  (match c.rollback_plan with
   | some rollback => "### Rollback Plan\n\n" ++ rollback ++ "\n\n"
   | none => "") ++
  (if c.breaking_changes.isEmpty then "" else
    "### Breaking Changes\n\n" ++
    String.join (c.breaking_changes.map (fun bc =>
      "- **" ++ bc.what ++ "** affects " ++ bc.affects ++ "\n" ++
      (match bc.migration with
       | some migration => "  Migration: " ++ migration ++ "\n"
       | none => ""))) ++ "\n") ++
  (if c.env_concerns.isEmpty then "" else
    "### Environment Concerns\n\n" ++
    String.join (c.env_concerns.map (fun ec =>
      "- **" ++ ec.environment ++ "**: " ++ ec.concern ++ "\n")) ++ "\n") ++
  (if c.checklist.isEmpty then "" else
    "### Checklist\n\n" ++
    String.join (c.checklist.map (fun item =>
      "- [" ++ (if item.done then "x" else " ") ++ "] " ++ item.item ++ "\n")) ++
    "\n")

/-- `PlanContext::compile` (plan.rs lines 225-311). -/
def PlanContext.compile (c : PlanContext) : String :=
  "## Planning Context\n\n" ++
  "### Goal\n\n" ++ c.goal ++ "\n\n" ++
  "**Phase**: " ++ c.phase.debugStr ++
  (match c.progress_pct with
   | some pct => " (" ++ toString pct ++ "% complete)"
   | none => "") ++ "\n\n" ++
  (if c.requirements.isEmpty then "" else
    "### Requirements\n\n" ++
    String.join (c.requirements.map (fun req =>
      "- **" ++ req.priority.debugStr ++ "**" ++
      (if req.confirmed then " âœ“" else "") ++ ": " ++
      req.description ++ "\n")) ++ "\n") ++
  (if c.decisions.isEmpty then "" else
    "### Decisions Made\n\n" ++
    String.join (c.decisions.map (fun d =>
      "- **" ++ d.decision ++ "**\n" ++
      "  Rationale: " ++ d.rationale ++ "\n")) ++ "\n") ++
  (if c.rejected_options.isEmpty then "" else
    "### Options Rejected\n\n" ++
    String.join (c.rejected_options.map (fun r =>
      "- ~~" ++ r.option ++ "~~" ++
      (if r.reconsiderable then " (could reconsider)" else "") ++ ": " ++
      r.reason ++ "\n")) ++ "\n") ++
  (if c.open_questions.isEmpty then "" else
    "### Open Questions\n\n" ++
    String.join (c.open_questions.map (fun q =>
      "- " ++ q.question ++
      (if q.blocking then " **[BLOCKING]**" else "") ++ "\n" ++
      "  Why it matters: " ++ q.importance ++ "\n")) ++ "\n") ++
  (if c.constraints.isEmpty then "" else
    "### Constraints\n\n" ++
    String.join (c.constraints.map (fun cn => "- " ++ cn.constraint ++ "\n")) ++
    "\n") ++
  (if c.next_steps.isEmpty then "" else
    "### Suggested Next Steps\n\n" ++
    String.join (c.next_steps.enum.map (fun p =>
      toString (p.1 + 1) ++ ". " ++ p.2 ++ "\n")) ++ "\n")

/-- `HandoffMode::compile_section` (mode.rs lines 49-55). -/
def HandoffMode.compile_section : HandoffMode → String
  | .Deploy ctx => ctx.compile
  | .Debug ctx => ctx.compile
  | .Plan ctx => ctx.compile

/-- The header block of `Handoff::compile_prompt` (handoff/mod.rs lines
155-159).  `{:?}` on the `&str` mode kind prints it quoted. -/
def Handoff.headerSection (h : Handoff) : String :=
  "# Handoff: " ++ h.summary ++ "\n\n" ++
  "**Mode**: \"" ++ h.mode.kind ++ "\"\n" ++
  "**From**: " ++ h.created_by ++ "\n" ++
  "**Created**: " ++ h.created_at.formatDisplay ++ "\n\n"

/-- The TL;DR block of `compile_prompt` (lines 162-166). -/
def Handoff.tldrSection (h : Handoff) : String :=
  if h.warm_up.tldr.isEmpty then "" else
    "## TL;DR\n\n" ++ h.warm_up.tldr ++ "\n\n"

/-- The Must-Know block of `compile_prompt` (lines 172-178). -/
def Handoff.mustKnowSection (h : Handoff) : String :=
  if h.warm_up.must_know.isEmpty then "" else
    "## Must Know\n\n" ++
    String.join (h.warm_up.must_know.map (fun item => "- " ++ item ++ "\n")) ++
    "\n"

/-- The ranked priority-files block of `compile_prompt` (lines 181-190). -/
def Handoff.priorityFilesSection (h : Handoff) : String :=
  if h.warm_up.priority_files.isEmpty then "" else
    "## Start Here (Priority Files)\n\n" ++
    String.join (h.warm_up.priority_files.map (fun pf =>
      toString pf.rank ++ ". `" ++ pf.path ++ "` - " ++ pf.reason ++ "\n" ++
      (match pf.focus with
       | some focus => "   Focus: " ++ focus ++ "\n"
       | none => ""))) ++ "\n"

/-- The suggested-first-action block of `compile_prompt` (lines 193-197). -/
def Handoff.suggestedStartSection (h : Handoff) : String :=
  match h.warm_up.suggested_start with
  | some start => "## Suggested First Action\n\n" ++ start ++ "\n\n"
  | none => ""

/-- The `**Modified**:` file list inside the prior-session activity
block (handoff/mod.rs lines 202-211): rendered only when the session
modified files. -/
def SessionState.modifiedList (s : SessionState) : String :=
  if !s.files_modified.isEmpty then
    "**Modified**:\n" ++
    String.join (s.files_modified.map (fun f =>
      "- `" ++ f.path ++ "`" ++
      (match f.change_summary with
       | some note => " - " ++ note
       | none => "") ++ "\n"))
  else ""

/-- The prior-session activity block of `compile_prompt` (handoff/mod.rs
lines 199-213): emitted when the session has read OR modified files,
wrapping the `**Modified**:` list above. -/
def SessionState.activitySection (s : SessionState) : String :=
  if !s.files_read.isEmpty || !s.files_modified.isEmpty then
    "## Previous Session Activity\n\n" ++ s.modifiedList ++ "\n"
  else ""

/-- The git-reference line of `compile_prompt` (lines 216-218). -/
def Handoff.gitRefSection (h : Handoff) : String :=
  match h.git_ref with
  | some git => "**Git " ++ git.ref_type.debugStr ++ "**: `" ++ git.value ++ "`\n"
  | none => ""

/-- `Handoff::compile_prompt` (handoff/mod.rs lines 152-221), as the
concatenation of its blocks in source order. -/
def Handoff.compile_prompt (h : Handoff) : String :=
  h.headerSection ++ h.tldrSection ++ h.mode.compile_section ++
  h.mustKnowSection ++ h.priorityFilesSection ++ h.suggestedStartSection ++
  h.session.activitySection ++ h.gitRefSection

/-! ## CLI token parsing (src/main.rs)

The three free-text enumeration matches at the CLI boundary, written in
`main.rs` as inline `match token.to_lowercase().as_str()` expressions. -/

/-- Likelihood token parsing (main.rs lines 395-399). -/
def parseLikelihoodToken (s : String) : Likelihood :=
  match sToLower s with
  | "high" => .High
  | "low" => .Low
  | _ => .Medium

/-- Attempt-outcome token parsing (main.rs lines 414-419). -/
def parseOutcomeToken (s : String) : AttemptOutcome :=
  match sToLower s with
  | "fixed" => .Fixed
  | "helped" => .Helped
  | "worse" => .MadeWorse
  | _ => .NoEffect

/-- Priority token parsing (main.rs lines 509-514). -/
def parsePriorityToken (s : String) : Priority :=
  match sToLower s with
  | "must" => .Must
  | "could" => .Could
  | "wont" => .Wont
  | _ => .Should

/-! ## The sync store (src/sync/mod.rs)

The store is modelled as three directories of named entries (`pending/`,
`archive/` and the `.xas` state root).  A file's content is the `Json`
document it holds.  Filesystem and git errors are outside the model (the
directories always exist after `init`, reads and writes succeed);
`SyncError` covers the error values the modelled control flow can
produce.  `commit_changes` only re-reads and commits the directory
contents (a git side effect), so `send_handoff`'s effect on the store is
the file write alone. -/

/-- One directory entry: a file name and the JSON document it holds. -/
structure Entry where
  name : String
  content : Json

/-- The three directory regions of a sync store. -/
structure Store where
  pending : List Entry
  archive : List Entry
  state : List Entry

/-- A freshly initialised store (`SyncManager::init` on an empty root). -/
def Store.empty : Store := ⟨[], [], []⟩

/-- Errors of the modelled control flow: `Error::HandoffNotFound` and a
serde parse failure. -/
inductive SyncError where
  | handoffNotFound (id : String)
  | parseError
deriving DecidableEq

/-- `std::fs::write`: truncate-or-create, i.e. replace the first entry
of that name or append a new one. -/
def fsWrite : List Entry → String → Json → List Entry
  | [], name, content => [⟨name, content⟩]
  | e :: rest, name, content =>
    if e.name = name then ⟨name, content⟩ :: rest
    else e :: fsWrite rest name content

/-- `std::fs::remove_file` (+ the `exists` guard): drop entries of that
name. -/
def fsRemove (dir : List Entry) (name : String) : List Entry :=
  dir.filter (fun e => !(e.name == name))

/-- `path.exists()` + `std::fs::read_to_string`: the content of the
entry of that name, if present. -/
def findEntry (dir : List Entry) (name : String) : Option Json :=
  (dir.find? (fun e => e.name == name)).map Entry.content

/-- `Path::extension() == Some("json")`: the name ends in `.json` and
has a nonempty stem (a bare `.json` is a hidden file without
extension). -/
def hasJsonExt (name : String) : Bool :=
  sEndsWith name ".json" && decide (5 < name.length)

/-- The pending filename derived in `send_handoff` (sync/mod.rs lines
98-102): `{created_at:%Y%m%d_%H%M%S}_{first 8 chars of id}.json`. -/
def handoffFilename (h : Handoff) : String :=
  h.created_at.formatCompact ++ "_" ++ sTake h.id 8 ++ ".json"

/-- `SyncManager::send_handoff` (sync/mod.rs lines 97-119) restricted to
its store effect: write the serialized handoff into `pending/` (the
optional auto-commit reproduces the directory into git and does not
change the store). -/
def sendHandoff (s : Store) (h : Handoff) : Store :=
  { s with pending := fsWrite s.pending (handoffFilename h) h.to_json }

/-- The per-entry body of the `receive_handoffs` loop (sync/mod.rs lines
129-145): keep a `.json`-named file when it parses, skip it (only
logging) otherwise. -/
def parsePendingEntry (e : Entry) : Option Handoff :=
  if hasJsonExt e.name then Handoff.from_json e.content else none

/-- The parsed pending entries in directory order, before sorting. -/
def parsedPending (s : Store) : List Handoff :=
  s.pending.filterMap parsePendingEntry

/-- The comparator of `receive_handoffs`
(`sort_by(|a, b| b.created_at.cmp(&a.created_at))`, sync/mod.rs line
148): `a` may precede `b` when `b.created_at.cmp(&a.created_at)` is not
`Greater`, i.e. when `b.created_at <= a.created_at`. -/
def newestFirst (a b : Handoff) : Bool :=
  decide (b.created_at.nanos ≤ a.created_at.nanos)

/-- Stable insertion step: the new element is placed before the first
element it must strictly precede, keeping earlier elements first among
ties. -/
def insertSorted (x : Handoff) : List Handoff → List Handoff
  | [] => [x]
  | y :: ys => if newestFirst x y then x :: y :: ys else y :: insertSorted x ys

/-- A stable sort under the `newestFirst` comparator.  Rust's
`slice::sort_by` is a stable sort; every stable sort under the same
total preorder computes the same list, so this structurally recursive
formulation is extensionally the source's sort. -/
def sortByNewest : List Handoff → List Handoff
  | [] => []
  | x :: xs => insertSorted x (sortByNewest xs)

/-- `SyncManager::receive_handoffs` (sync/mod.rs lines 122-151): parse
the pending directory, then stable-sort by creation time, newest first. -/
def receiveHandoffs (s : Store) : List Handoff :=
  sortByNewest (parsedPending s)

/-- `SyncManager::archive_handoff` (sync/mod.rs lines 154-172): rename
the first pending entry whose filename contains the given id substring
into `archive/`; `Error::HandoffNotFound` when none matches. -/
def archiveHandoff (s : Store) (handoff_id : String) : Except SyncError Store :=
  match s.pending.find? (fun e => sContains e.name handoff_id) with
  | some e =>
    Except.ok { s with
      pending := s.pending.eraseP (fun e => sContains e.name handoff_id),
      archive := fsWrite s.archive e.name e.content }
  | none => Except.error (SyncError.handoffNotFound handoff_id)

/-- `SyncManager::save_wip` (sync/mod.rs lines 175-180). -/
def saveWip (s : Store) (h : Handoff) : Store :=
  { s with state := fsWrite s.state "wip.json" h.to_json }

/-- `SyncManager::load_wip` (sync/mod.rs lines 183-192): empty slot is
`none`, not an error; a present but unparseable slot is an error. -/
def loadWip (s : Store) : Except SyncError (Option Handoff) :=
  match findEntry s.state "wip.json" with
  | none => Except.ok none
  | some content =>
    match Handoff.from_json content with
    | some h => Except.ok (some h)
    | none => Except.error SyncError.parseError

/-- `SyncManager::clear_wip` (sync/mod.rs lines 195-201): remove the
slot if it exists; total (the only failure mode in the source is a
filesystem error, outside the model). -/
def clearWip (s : Store) : Store :=
  { s with state := fsRemove s.state "wip.json" }

/-- `SyncManager::read_state` (sync/mod.rs lines 261-270), at the JSON
value level: the parsed document stored under `{key}.json`, or `none`
when the file is absent. -/
def readState (s : Store) (key : String) : Option Json :=
  findEntry s.state (key ++ ".json")

/-- `SyncManager::write_state` (sync/mod.rs lines 273-278). -/
def writeState (s : Store) (key : String) (v : Json) : Store :=
  { s with state := fsWrite s.state (key ++ ".json") v }

/-! ## Helper lemmas about the store primitives -/

theorem findEntry_fsWrite_self (dir : List Entry) (n : String) (c : Json) :
    findEntry (fsWrite dir n c) n = some c := by
  induction dir with
  | nil => simp [fsWrite, findEntry]
  | cons e rest ih =>
    by_cases he : e.name = n
    · simp [fsWrite, he, findEntry]
    · have hbe : (e.name == n) = false := by simpa using he
      simp only [fsWrite, if_neg he]
      simp only [findEntry, List.find?_cons, hbe] at ih ⊢
      exact ih

theorem findEntry_fsRemove_self (dir : List Entry) (n : String) :
    findEntry (fsRemove dir n) n = none := by
  have hnone : (fsRemove dir n).find? (fun e => e.name == n) = none := by
    rw [List.find?_eq_none]
    intro e he
    simp only [fsRemove] at he
    have := List.of_mem_filter he
    simpa using this
  simp [findEntry, hnone]

theorem fsRemove_idem (dir : List Entry) (n : String) :
    fsRemove (fsRemove dir n) n = fsRemove dir n := by
  simp [fsRemove, List.filter_filter]

theorem filterMap_parsePending (l : List Entry) :
    l.filterMap parsePendingEntry =
      (l.filter (fun e => hasJsonExt e.name)).filterMap
        (fun e => Handoff.from_json e.content) := by
  induction l with
  | nil => rfl
  | cons e rest ih =>
    cases he : hasJsonExt e.name <;>
      simp [parsePendingEntry, he, ih, List.filterMap_cons]

theorem hasJsonExt_handoffFilename (h : Handoff) :
    hasJsonExt (handoffFilename h) = true := by
  have h5 : (".json" : String).length = 5 := rfl
  have h1 : ("_" : String).length = 1 := rfl
  rw [hasJsonExt, Bool.and_eq_true]
  constructor
  · rw [handoffFilename, sEndsWith]
    rw [List.isSuffixOf_iff_suffix]
    rw [String.data_append]
    exact List.suffix_append _ _
  · rw [decide_eq_true_iff, handoffFilename]
    rw [String.length_append, String.length_append, String.length_append]
    omega

theorem count_parsed_zero (h : Handoff) (l : List Entry)
    (hno : ∀ e ∈ l, Handoff.from_json e.content ≠ some h) :
    (l.filterMap parsePendingEntry).count h = 0 := by
  induction l with
  | nil => rfl
  | cons e rest ih =>
    have hrest := ih (fun e' he' => hno e' (by simp [he']))
    rw [List.filterMap_cons]
    cases hp : parsePendingEntry e with
    | none => exact hrest
    | some h' =>
      have hne : h' ≠ h := by
        intro hcon
        subst hcon
        rw [parsePendingEntry] at hp
        by_cases hx : hasJsonExt e.name
        · rw [if_pos hx] at hp
          exact hno e (by simp) hp
        · rw [if_neg hx] at hp
          cases hp
      rw [List.count_cons]
      simp [hrest, hne, Ne.symm hne]

theorem count_parsed_fsWrite (h : Handoff) (n : String) (c : Json)
    (hext : hasJsonExt n = true) (hc : Handoff.from_json c = some h) :
    ∀ l : List Entry, (∀ e ∈ l, Handoff.from_json e.content ≠ some h) →
      ((fsWrite l n c).filterMap parsePendingEntry).count h = 1 := by
  intro l
  induction l with
  | nil =>
    intro _
    simp [fsWrite, parsePendingEntry, hext, hc, List.filterMap_cons]
  | cons e rest ih =>
    intro hno
    by_cases he : e.name = n
    · rw [fsWrite, if_pos he, List.filterMap_cons]
      have hparse : parsePendingEntry ⟨n, c⟩ = some h := by
        simp [parsePendingEntry, hext, hc]
      rw [hparse, List.count_cons]
      have hz := count_parsed_zero h rest (fun e' he' => hno e' (by simp [he']))
      simp [hz]
    · rw [fsWrite, if_neg he, List.filterMap_cons]
      have hrest := ih (fun e' he' => hno e' (by simp [he']))
      cases hp : parsePendingEntry e with
      | none => exact hrest
      | some h' =>
        have hne : h' ≠ h := by
          intro hcon
          subst hcon
          rw [parsePendingEntry] at hp
          by_cases hx : hasJsonExt e.name
          · rw [if_pos hx] at hp
            exact hno e (by simp) hp
          · rw [if_neg hx] at hp
            cases hp
        rw [List.count_cons]
        simp [hrest, hne, Ne.symm hne]

/-! ## Concrete sample values used by witnesses and counterexamples -/

/-- `DeployContext::default()`: everything empty. -/
def emptyDeploy : DeployContext := ⟨[], [], none, [], [], [], [], none⟩

/-- A session state with no recorded activity
(`SessionState::default()`). -/
def emptySession : SessionState := ⟨none, none, [], [], [], [], [], [], []⟩

/-- `WarmUpSequence::default()`. -/
def emptyWarmUp : WarmUpSequence := ⟨[], "", [], none, none⟩

/-- A small concrete debug-mode handoff. -/
def sampleHandoff : Handoff :=
  { id := "abcdef01-2345", mode := HandoffMode.Debug
      ⟨"login fails", ["500 on submit"], [], [], [], [], none, none, none⟩,
    created_by := "alice", created_at := ⟨0⟩, summary := "fix login",
    session := emptySession, warm_up := emptyWarmUp, git_ref := none,
    tags := [] }

/-- A second handoff, created later than `sampleHandoff`. -/
def sampleHandoff2 : Handoff :=
  { id := "99990000-aaaa", mode := HandoffMode.Deploy emptyDeploy,
    created_by := "bob", created_at := ⟨5000000000⟩, summary := "ship it",
    session := emptySession, warm_up := emptyWarmUp, git_ref := none,
    tags := ["release"] }

/-- A store whose pending directory holds the two sample handoffs,
oldest first in directory order. -/
def storeTwo : Store :=
  ⟨[⟨handoffFilename sampleHandoff, sampleHandoff.to_json⟩,
    ⟨handoffFilename sampleHandoff2, sampleHandoff2.to_json⟩], [], []⟩

/-! ## The claims -/

/-- C1 helper: the handoff round trip (also used by the finalize
transition below). -/
theorem Handoff.from_to (h : Handoff) (hw : h.wf = true) :
    Handoff.from_json h.to_json = some h := by
  cases h with
  | mk id mode created_by created_at summary session warm_up git_ref tags =>
    simp only [Handoff.wf, Bool.and_eq_true] at hw
    obtain ⟨⟨hm, hs⟩, hwu⟩ := hw
    simp [Handoff.to_json, Handoff.from_json, Json.getField, Json.lookupField,
      HandoffMode_rt mode hm, SessionState_rt session hs,
      WarmUpSequence_rt warm_up hwu, DateTimeUtc_rt,
      decodeOpt_gitref, decodeArr_str, decodeString]

/-- C1: deserializing the serialization of any well-formed handoff
(`Handoff::from_json` after `Handoff::to_json`) succeeds and reproduces
the handoff in every field: identifier, creation timestamp to the same
precision, creator, summary, mode discriminant and payload, session
state, warm-up sequence, git reference, and tags. -/
theorem handoff_roundtrip (h : Handoff) (hw : h.wf = true) :
    Handoff.from_json h.to_json = some h :=
  Handoff.from_to h hw

/-- C1 witness: the round trip evaluated on a concrete handoff. -/
theorem handoff_roundtrip_witness :
    sampleHandoff.wf = true ∧
    Handoff.from_json sampleHandoff.to_json = some sampleHandoff :=
  ⟨by decide, handoff_roundtrip sampleHandoff (by decide)⟩

theorem newestFirst_trans : ∀ a b c : Handoff,
    newestFirst a b → newestFirst b c → newestFirst a c := by
  intro a b c hab hbc
  simp only [newestFirst, decide_eq_true_eq] at hab hbc ⊢
  omega

theorem newestFirst_total : ∀ a b : Handoff,
    newestFirst a b || newestFirst b a := by
  intro a b
  simp only [newestFirst, Bool.or_eq_true, decide_eq_true_eq]
  omega

theorem insertSorted_perm (x : Handoff) (l : List Handoff) :
    (insertSorted x l).Perm (x :: l) := by
  induction l with
  | nil => exact List.Perm.refl _
  | cons y ys ih =>
    rw [insertSorted]
    split
    · exact List.Perm.refl _
    · exact (List.Perm.cons y ih).trans (List.Perm.swap x y ys)

theorem sortByNewest_perm (l : List Handoff) : (sortByNewest l).Perm l := by
  induction l with
  | nil => exact List.Perm.refl _
  | cons x xs ih =>
    rw [sortByNewest]
    exact (insertSorted_perm x (sortByNewest xs)).trans (List.Perm.cons x ih)

theorem pairwise_insertSorted (x : Handoff) (l : List Handoff)
    (hl : l.Pairwise (fun a b => newestFirst a b = true)) :
    (insertSorted x l).Pairwise (fun a b => newestFirst a b = true) := by
  induction l with
  | nil => simp [insertSorted]
  | cons y ys ih =>
    rw [insertSorted]
    rcases List.pairwise_cons.mp hl with ⟨hy, hys⟩
    split
    case isTrue hxy =>
      refine List.pairwise_cons.mpr ⟨?_, hl⟩
      intro z hz
      rcases List.mem_cons.mp hz with rfl | hz'
      · exact hxy
      · exact newestFirst_trans x y z hxy (hy z hz')
    case isFalse hxy =>
      have hyx : newestFirst y x = true := by
        rcases Bool.or_eq_true _ _ |>.mp (newestFirst_total x y) with h | h
        · exact absurd h hxy
        · exact h
      refine List.pairwise_cons.mpr ⟨?_, ih hys⟩
      intro z hz
      have hz' : z ∈ x :: ys := (insertSorted_perm x ys).subset hz
      rcases List.mem_cons.mp hz' with rfl | hz''
      · exact hyx
      · exact hy z hz''

theorem pairwise_sortByNewest (l : List Handoff) :
    (sortByNewest l).Pairwise (fun a b => newestFirst a b = true) := by
  induction l with
  | nil => simp [sortByNewest]
  | cons x xs ih => exact pairwise_insertSorted x (sortByNewest xs) ih

/-- C2: `receive_handoffs` returns exactly the parseable pending
handoffs (as a permutation of the parse results), sorted by creation
timestamp in descending order (newest first), and it is a function of
the pending region alone, so two calls with no intervening writes
return the identical list. -/
theorem receive_handoffs_sorted (s s' : Store) (hpend : s'.pending = s.pending) :
    (receiveHandoffs s).Perm (parsedPending s) ∧
    (receiveHandoffs s).Pairwise
      (fun a b => b.created_at.nanos ≤ a.created_at.nanos) ∧
    receiveHandoffs s' = receiveHandoffs s := by
  refine ⟨sortByNewest_perm _, ?_, ?_⟩
  · exact (pairwise_sortByNewest (parsedPending s)).imp (fun hab => by
      simpa [newestFirst, decide_eq_true_eq] using hab)
  · rw [receiveHandoffs, receiveHandoffs, parsedPending, parsedPending, hpend]

/-- C2 witness: the ordering contract evaluated on a concrete
two-handoff store. -/
theorem receive_handoffs_sorted_witness :
    (receiveHandoffs storeTwo).Perm (parsedPending storeTwo) ∧
    (receiveHandoffs storeTwo).Pairwise
      (fun a b => b.created_at.nanos ≤ a.created_at.nanos) ∧
    receiveHandoffs storeTwo = receiveHandoffs storeTwo :=
  receive_handoffs_sorted storeTwo storeTwo rfl

/-- A store whose pending directory already holds a copy of
`sampleHandoff` under a filename different from the one `send_handoff`
derives. -/
def storeC3 : Store := ⟨[⟨"zzz_old.json", sampleHandoff.to_json⟩], [], []⟩

/-- C3 counterexample: starting from a store whose pending directory
already contains a file parsing to the very handoff being sent, the
finalize sequence leaves the handoff in `receive_handoffs()` twice, not
exactly once — the claim fails for this store state. -/
theorem finalize_transition_counterexample :
    loadWip (clearWip (sendHandoff storeC3 sampleHandoff)) = Except.ok none ∧
    (receiveHandoffs (clearWip (sendHandoff storeC3 sampleHandoff))).count
      sampleHandoff = 2 := by
  exact ⟨rfl, by decide⟩

/-- C3 (amended): for every handoff `h` and store whose pending
directory does not already hold a file parsing to `h`, after
`send_handoff(h)` followed by `clear_wip()`, `load_wip()` returns empty
and `receive_handoffs()` includes `h` exactly once. -/
theorem finalize_transition (s : Store) (h : Handoff) (hw : h.wf = true)
    (hfresh : ∀ e ∈ s.pending, Handoff.from_json e.content ≠ some h) :
    loadWip (clearWip (sendHandoff s h)) = Except.ok none ∧
    (receiveHandoffs (clearWip (sendHandoff s h))).count h = 1 := by
  constructor
  · rw [loadWip]
    have hnone : findEntry (clearWip (sendHandoff s h)).state "wip.json" = none :=
      findEntry_fsRemove_self _ _
    rw [hnone]
  · have hperm : (receiveHandoffs (clearWip (sendHandoff s h))).Perm
        (parsedPending (clearWip (sendHandoff s h))) :=
      sortByNewest_perm _
    rw [hperm.count_eq]
    exact count_parsed_fsWrite h (handoffFilename h) h.to_json
      (hasJsonExt_handoffFilename h) (Handoff.from_to h hw) s.pending hfresh

/-- C3 witness: the amended finalize transition evaluated on the empty
store. -/
theorem finalize_transition_witness :
    loadWip (clearWip (sendHandoff Store.empty sampleHandoff)) = Except.ok none ∧
    (receiveHandoffs (clearWip (sendHandoff Store.empty sampleHandoff))).count
      sampleHandoff = 1 :=
  finalize_transition Store.empty sampleHandoff (by decide)
    (fun e he => absurd he (by simp [Store.empty]))

/-- A pending directory holding a parseable handoff document under a
non-`.json` filename. -/
def storeC4 : Store := ⟨[⟨"handoff.txt", sampleHandoff.to_json⟩], [], []⟩

/-- C4 counterexample: a pending file whose content parses as a Handoff
but whose name lacks the `.json` extension is skipped, so the call does
not return every file that parses as a Handoff. -/
theorem receive_skips_counterexample :
    storeC4.pending = [⟨"handoff.txt", sampleHandoff.to_json⟩] ∧
    Handoff.from_json sampleHandoff.to_json = some sampleHandoff ∧
    receiveHandoffs storeC4 = [] := by
  refine ⟨rfl, by decide, by decide⟩

/-- C4 (amended): `receive_handoffs` never fails, and returns exactly
the handoffs parsed from the `.json`-named files of the pending
directory, skipping files that fail to parse and files without the
`.json` extension. -/
theorem receive_parses_json_files (s : Store) :
    (receiveHandoffs s).Perm
      ((s.pending.filter (fun e => hasJsonExt e.name)).filterMap
        (fun e => Handoff.from_json e.content)) := by
  rw [receiveHandoffs, parsedPending, ← filterMap_parsePending]
  exact sortByNewest_perm _

theorem archive_core (id : String) :
    ∀ l : List Entry, (l.map Entry.name).Nodup →
      ∀ e, l.find? (fun x => sContains x.name id) = some e →
        e ∈ l ∧ sContains e.name id = true ∧
        (∀ e' ∈ l.eraseP (fun x => sContains x.name id), e'.name ≠ e.name) ∧
        (l.eraseP (fun x => sContains x.name id)).length + 1 = l.length := by
  intro l
  induction l with
  | nil =>
    intro _ e hf
    simp at hf
  | cons a rest ih =>
    intro hnd e hf
    rw [List.map_cons, List.nodup_cons] at hnd
    obtain ⟨hna, hndr⟩ := hnd
    cases hp : sContains a.name id with
    | true =>
      rw [List.find?_cons] at hf
      simp only [hp] at hf
      injection hf with hf
      subst hf
      refine ⟨by simp, hp, ?_, ?_⟩
      · rw [List.eraseP_cons]
        simp only [hp, cond_true]
        intro e' he' hcon
        exact hna (hcon ▸ List.mem_map_of_mem Entry.name he')
      · rw [List.eraseP_cons]
        simp only [hp, cond_true]
        simp
    | false =>
      rw [List.find?_cons] at hf
      simp only [hp] at hf
      obtain ⟨hmem, hpe, hnames, hlen⟩ := ih hndr e hf
      refine ⟨List.mem_cons_of_mem _ hmem, hpe, ?_, ?_⟩
      · rw [List.eraseP_cons]
        simp only [hp, cond_false]
        intro e' he'
        rcases List.mem_cons.mp he' with rfl | hmem'
        · intro hcon
          exact hna (hcon ▸ List.mem_map_of_mem Entry.name hmem)
        · exact hnames e' hmem'
      · rw [List.eraseP_cons]
        simp only [hp, cond_false]
        simp only [List.length_cons]
        omega

/-- C5: on a pending directory without duplicate filenames,
`archive_handoff(id)` fails with the handoff-not-found error exactly
when no pending filename contains `id` as a substring; on success, the
first matching file has left the pending region (one file fewer, its
name gone, so `receive_handoffs` no longer sees it) and its unchanged
content is found in the archive region under the same name — the whole
move being the single store update a rename performs. -/
theorem archive_handoff_spec (s : Store) (id : String)
    (hnd : (s.pending.map Entry.name).Nodup) :
    (archiveHandoff s id = Except.error (SyncError.handoffNotFound id) ↔
      ∀ e ∈ s.pending, sContains e.name id = false) ∧
    ∀ s', archiveHandoff s id = Except.ok s' →
      ∃ e ∈ s.pending, sContains e.name id = true ∧
        s'.pending = s.pending.eraseP (fun x => sContains x.name id) ∧
        findEntry s'.archive e.name = some e.content ∧
        (∀ e' ∈ s'.pending, e'.name ≠ e.name) ∧
        s'.pending.length + 1 = s.pending.length := by
  cases hf : s.pending.find? (fun x => sContains x.name id) with
  | none =>
    have hall : ∀ e ∈ s.pending, sContains e.name id = false := by
      intro e he
      have := List.find?_eq_none.mp hf e he
      simpa using this
    constructor
    · constructor
      · intro _
        exact hall
      · intro _
        rw [archiveHandoff, hf]
    · intro s' hok
      rw [archiveHandoff, hf] at hok
      simp at hok
  | some e =>
    obtain ⟨hmem, hpe, hnames, hlen⟩ := archive_core id s.pending hnd e hf
    constructor
    · constructor
      · intro herr
        rw [archiveHandoff, hf] at herr
        simp at herr
      · intro hall
        rw [hall e hmem] at hpe
        cases hpe
    · intro s' hok
      rw [archiveHandoff, hf] at hok
      injection hok with hok
      subst hok
      exact ⟨e, hmem, hpe, rfl, findEntry_fsWrite_self _ _ _, hnames, hlen⟩

/-- A pending directory with a single entry whose filename contains
the short id `abc123`. -/
def storeC5 : Store := ⟨[⟨"20240101_abc123.json", Json.null⟩], [], []⟩

/-- C5 witness: the archive contract evaluated on a concrete store. -/
theorem archive_handoff_spec_witness :
    (archiveHandoff storeC5 "abc123" =
        Except.error (SyncError.handoffNotFound "abc123") ↔
      ∀ e ∈ storeC5.pending, sContains e.name "abc123" = false) ∧
    ∀ s', archiveHandoff storeC5 "abc123" = Except.ok s' →
      ∃ e ∈ storeC5.pending, sContains e.name "abc123" = true ∧
        s'.pending = storeC5.pending.eraseP (fun x => sContains x.name "abc123") ∧
        findEntry s'.archive e.name = some e.content ∧
        (∀ e' ∈ s'.pending, e'.name ≠ e.name) ∧
        s'.pending.length + 1 = storeC5.pending.length :=
  archive_handoff_spec storeC5 "abc123" (by decide)

/-- C6: `clear_wip` is idempotent and total on the WIP slot — the model
is a total function of the store, repeating it changes nothing, and
after it `load_wip` returns the empty result, not an error. -/
theorem clear_wip_idempotent (s : Store) :
    clearWip (clearWip s) = clearWip s ∧
    loadWip (clearWip s) = Except.ok none := by
  constructor
  · simp [clearWip, fsRemove_idem]
  · rw [loadWip]
    have hnone : findEntry (clearWip s).state "wip.json" = none :=
      findEntry_fsRemove_self _ _
    rw [hnone]

/-- C7: the three CLI token parsers are total functions, and every
token whose lowercase form is not a recognized variant name maps to the
documented default: Medium for likelihood, NoEffect for outcome, Should
for priority. -/
theorem cli_token_defaults (s : String) :
    (sToLower s ≠ "high" → sToLower s ≠ "low" →
      parseLikelihoodToken s = Likelihood.Medium) ∧
    (sToLower s ≠ "fixed" → sToLower s ≠ "helped" → sToLower s ≠ "worse" →
      parseOutcomeToken s = AttemptOutcome.NoEffect) ∧
    (sToLower s ≠ "must" → sToLower s ≠ "could" → sToLower s ≠ "wont" →
      parsePriorityToken s = Priority.Should) := by
  refine ⟨?_, ?_, ?_⟩
  · intro h1 h2
    rw [parseLikelihoodToken]
    split <;> simp_all
  · intro h1 h2 h3
    rw [parseOutcomeToken]
    split <;> simp_all
  · intro h1 h2 h3
    rw [parsePriorityToken]
    split <;> simp_all

/-- C7 witness: unrecognized tokens (including `eliminated` and
`inconclusive`, which are data-model variants the CLI does not accept)
fall back to the defaults. -/
theorem cli_token_defaults_witness :
    parseLikelihoodToken "eliminated" = Likelihood.Medium ∧
    parseOutcomeToken "inconclusive" = AttemptOutcome.NoEffect ∧
    parsePriorityToken "URGENT" = Priority.Should :=
  ⟨(cli_token_defaults "eliminated").1 (by decide) (by decide),
   (cli_token_defaults "inconclusive").2.1 (by decide) (by decide) (by decide),
   (cli_token_defaults "URGENT").2.2 (by decide) (by decide) (by decide)⟩

/-- C8: reading a state key that has never been written returns the
empty result, not an error, and reading a key right after writing it
returns the written value. -/
theorem read_write_state (s : Store) (key : String) (v : Json)
    (habs : ∀ e ∈ s.state, e.name ≠ key ++ ".json") :
    readState s key = none ∧
    readState (writeState s key v) key = some v := by
  constructor
  · rw [readState]
    have hnone : s.state.find? (fun e => e.name == key ++ ".json") = none := by
      rw [List.find?_eq_none]
      intro e he
      simpa using habs e he
    simp [findEntry, hnone]
  · rw [readState, writeState]
    exact findEntry_fsWrite_self _ _ _

/-- C8 witness: the state contract on the spec's `current_agent`
scenario, starting from the fresh store. -/
theorem read_write_state_witness :
    readState Store.empty "current_agent" = none ∧
    readState (writeState Store.empty "current_agent" (Json.str "alice"))
      "current_agent" = some (Json.str "alice") :=
  read_write_state Store.empty "current_agent" (Json.str "alice")
    (fun e he => absurd he (by simp [Store.empty]))

theorem activity_ne_empty (x : String) :
    "## Previous Session Activity\n\n" ++ x ++ "\n" ≠ "" := by
  intro hcon
  have hlen := congrArg String.length hcon
  rw [String.length_append, String.length_append] at hlen
  have h1 : ("\n" : String).length = 1 := rfl
  have h0 : ("" : String).length = 0 := rfl
  omega

/-- A handoff whose session read one file and modified none. -/
def handoffC9 : Handoff :=
  { id := "11112222-3333", mode := HandoffMode.Deploy emptyDeploy,
    created_by := "carol", created_at := ⟨0⟩, summary := "explore",
    session := { emptySession with
      files_read := [⟨"src/main.rs", none, [], some 1⟩] },
    warm_up := emptyWarmUp, git_ref := none, tags := [] }

/-- C9 counterexample: a handoff with no modified files but one read
file still renders the "Previous Session Activity" heading in
`compile_prompt`, so the section is not present only-when files were
modified. -/
theorem compile_prompt_activity_counterexample :
    handoffC9.session.files_modified = [] ∧
    sContains handoffC9.compile_prompt "## Previous Session Activity" = true := by
  exact ⟨rfl, by decide⟩

theorem modified_list_ne_empty (x : String) :
    "**Modified**:\n" ++ x ≠ "" := by
  intro hcon
  have hlen := congrArg String.length hcon
  rw [String.length_append] at hlen
  have h1 : ("**Modified**:\n" : String).length = 14 := rfl
  have h0 : ("" : String).length = 0 := rfl
  omega

/-- C9 (amended): the prior-session activity block of `compile_prompt`
is present (nonempty) exactly when the session has read files or
modified files, and the `**Modified**:` file list inside it is present
exactly when the session's modified list is nonempty. -/
theorem activity_section_condition (h : Handoff) :
    (h.session.activitySection = "" ↔
      (h.session.files_read = [] ∧ h.session.files_modified = [])) ∧
    (h.session.modifiedList = "" ↔ h.session.files_modified = []) := by
  constructor
  · rw [SessionState.activitySection]
    cases h1 : h.session.files_read.isEmpty <;>
      cases h2 : h.session.files_modified.isEmpty <;>
        simp_all [List.isEmpty_iff, List.isEmpty_eq_false, activity_ne_empty]
  · rw [SessionState.modifiedList]
    cases h2 : h.session.files_modified.isEmpty <;>
      simp_all [List.isEmpty_iff, List.isEmpty_eq_false, modified_list_ne_empty]

/-- Session state with importance 0 passed to `observed`. -/
def sessionC10 : SessionState :=
  emptySession.observed "flaky test" ObservationCategory.General 0

/-- C10 counterexample: `observed` with importance 0 stores importance
0, which is outside the claimed range 1..=5 — the lower bound is not
enforced. -/
theorem observed_counterexample :
    ¬ (∀ o ∈ sessionC10.observations,
        1 ≤ o.importance ∧ o.importance ≤ 5) := by
  decide

/-- C10 (amended): `observed` appends the observation with importance
clamped to at most 5 (`importance.min(5)`); the lower bound is not
enforced, an importance of 0 is stored as 0.  Consequently every
observation of a session built through `observed` from a session whose
observations are all at most 5 stays at most 5. -/
theorem observed_clamps_upper (s : SessionState) (note : String)
    (cat : ObservationCategory) (importance : Nat)
    (hprev : ∀ o ∈ s.observations, o.importance ≤ 5) :
    (∀ o ∈ (s.observed note cat importance).observations, o.importance ≤ 5) ∧
    (s.observed note cat importance).observations =
      s.observations ++ [⟨note, cat, importance.min 5⟩] := by
  constructor
  · intro o ho
    rw [SessionState.observed] at ho
    simp only [List.mem_append, List.mem_singleton] at ho
    rcases ho with ho | rfl
    · exact hprev o ho
    · exact Nat.min_le_right importance 5
  · rfl

/-- C10 witness: the amended clamping behaviour evaluated at
importance 7 on the empty session. -/
theorem observed_clamps_upper_witness :
    (∀ o ∈ (emptySession.observed "n" ObservationCategory.Gotcha 7).observations,
      o.importance ≤ 5) ∧
    (emptySession.observed "n" ObservationCategory.Gotcha 7).observations =
      emptySession.observations ++ [⟨"n", ObservationCategory.Gotcha, Nat.min 7 5⟩] :=
  observed_clamps_upper emptySession "n" ObservationCategory.Gotcha 7
    (fun o ho => absurd ho (by simp [emptySession]))
